import Mathlib

set_option maxHeartbeats 1000000
set_option linter.unusedVariables false
set_option linter.unreachableTactic false
set_option linter.unusedTactic false

/-!
Shallow embedding of the QUIC stream multiplexing core,
`quinn-proto/src/connection/streams.rs`.

Conventions:
* `u64` values are modelled as `Nat`.  Arithmetic that Rust performs with
  overflow checks (debug semantics) is modelled as checked arithmetic in the
  `Option` monad, where `none` represents a panic; `saturating_add` /
  `saturating_sub` are modelled explicitly.  Stream-count bookkeeping
  increments (`next`, `max_remote`, `send_streams`, ...) are modelled as exact
  `Nat` increments; their decrements are checked.
* The collaborators that are not part of the sources (`StreamId`, the
  reassembly buffer `Assembler`, the `SendBuffer`, the frame types and
  `Retransmits`) are modelled from the spec, as marked on each definition.
* Byte contents are never inspected by the core, only byte counts; slices and
  `Bytes` values are therefore modelled by their lengths.
* `VecDeque`s are modelled as lists with the front at the head
  (`push_back` appends); `Vec`s used as stacks (`connection_blocked`,
  the `Retransmits` queues) are modelled as lists with the most recently
  pushed element at the head, so `Vec::pop` takes the head.
-/

/-- Largest `u64` value. -/
def U64MAX : Nat := 2 ^ 64 - 1

/-- `VarInt::MAX`: the largest value representable as a QUIC varint. -/
def VARINTMAX : Nat := 2 ^ 62 - 1

/-- `MAX_STREAM_COUNT`. -/
def MAXSTREAMCOUNT : Nat := 2 ^ 60

/-- Checked `u64` addition; `none` is an overflow panic. -/
def addU (a b : Nat) : Option Nat :=
  if a + b ≤ U64MAX then some (a + b) else none

/-- Checked `u64` subtraction; `none` is an underflow panic. -/
def subU (a b : Nat) : Option Nat :=
  if b ≤ a then some (a - b) else none

/-- `u64::saturating_add`. -/
def satAdd (a b : Nat) : Nat := min (a + b) U64MAX

/-- Pointwise update of a function map. -/
def upd {κ α : Type} [DecidableEq κ] (m : κ → α) (k : κ) (v : α) : κ → α :=
  fun x => if x = k then v else m x

/-- Endpoint role. -/
inductive Side where
  | client
  | server
  deriving DecidableEq

/-- `!side`. -/
def Side.other : Side → Side
  | .client => .server
  | .server => .client

/-- Stream directionality. -/
inductive Dir where
  | bi
  | uni
  deriving DecidableEq

/-- Modelled from the spec: `StreamId` algebra (§3).  The crate's `StreamId`
packs `(index << 2) | (dir << 1) | side` into a 62-bit integer; the three
components are represented directly. -/
structure StreamId where
  side : Side
  dir : Dir
  index : Nat
  deriving DecidableEq

/-- `StreamId::initiator`. -/
def StreamId.initiator (id : StreamId) : Side := id.side

/-- Transport-level protocol errors.  The human-readable messages carried by
the Rust variants are not observable to any claim and are omitted. -/
inductive TransportError where
  | flowControlError
  | finalSizeError
  | streamStateError
  | streamLimitError
  | frameEncodingError
  deriving DecidableEq

/-- `WriteError`. -/
inductive WriteError where
  | blocked
  | stopped (code : Nat)
  | unknownStream
  deriving DecidableEq

/-- `ReadError`. -/
inductive ReadError where
  | blocked
  | reset (code : Nat)
  | unknownStream
  | illegalOrderedRead
  deriving DecidableEq

/-- `FinishError`. -/
inductive FinishError where
  | stopped (code : Nat)
  | unknownStream
  deriving DecidableEq

/-- `StreamEvent`. -/
inductive StreamEvent where
  | opened (dir : Dir)
  | readable (id : StreamId)
  | writable (id : StreamId)
  | finished (id : StreamId)
  | stopped (id : StreamId) (errorCode : Nat)
  | available (dir : Dir)
  deriving DecidableEq

/-- Modelled from the spec: `frame::Stream`.  The payload is represented by
its length, `dataLen`; the core never inspects byte contents. -/
structure StreamFrame where
  id : StreamId
  offset : Nat
  fin : Bool
  dataLen : Nat
  deriving DecidableEq

/-- Modelled from the spec: `frame::ResetStream`. -/
structure ResetStreamFrame where
  id : StreamId
  errorCode : Nat
  finalOffset : Nat
  deriving DecidableEq

/-- Modelled from the spec: `frame::StreamMeta`; `offsets` is the half-open
range `[offsets.1, offsets.2)`. -/
structure StreamMeta where
  id : StreamId
  offsets : Nat × Nat
  fin : Bool
  deriving DecidableEq

/-- Modelled from the spec: `frame::StopSending`. -/
structure StopSendingFrame where
  id : StreamId
  errorCode : Nat
  deriving DecidableEq

/-- Modelled from the spec: the transport parameters consumed by the core
(§6), all QUIC varints. -/
structure TransportParameters where
  initialMaxStreamsBidi : Nat
  initialMaxStreamsUni : Nat
  initialMaxData : Nat
  initialMaxStreamDataBidiLocal : Nat
  initialMaxStreamDataBidiRemote : Nat
  initialMaxStreamDataUni : Nat
  deriving DecidableEq

/-! ## The reassembly buffer, modelled from the spec (§4.3) -/

/-- Modelled from the spec: the reassembly buffer (§4.3).
`fragments` is the multiset of received intervals `[a, b)` (dropped once the
stream is stopped, since data on stopped streams is discarded);
`endOffset` is `end()`, one past the highest byte ever observed;
`bytesRead` is the total number of delivered bytes;
`unordered` records that an unordered read has occurred, which poisons
subsequent ordered reads. -/
structure Assembler where
  fragments : List (Nat × Nat)
  bytesRead : Nat
  endOffset : Nat
  stopped : Bool
  unordered : Bool
  deriving DecidableEq

def Assembler.new : Assembler :=
  { fragments := [], bytesRead := 0, endOffset := 0, stopped := false, unordered := false }

/-- Longest contiguous reach from point `p` through the received fragments. -/
def reach (frags : List (Nat × Nat)) (p : Nat) : Nat :=
  match h : frags.find? (fun ab => decide (ab.1 ≤ p) && decide (p < ab.2)) with
  | none => p
  | some ab => reach (frags.erase ab) ab.2
termination_by frags.length
decreasing_by
  have hm := List.mem_of_find?_eq_some h
  have h1 := List.length_erase_of_mem hm
  have h2 := List.length_pos_of_mem hm
  omega

/-- `Assembler::insert`: deduplicates and merges; modelled by recording the
interval (data on stopped streams is discarded, but `end()` keeps tracking the
high-water mark). -/
def Assembler.insert (a : Assembler) (off len : Nat) : Assembler :=
  { a with
    endOffset := Nat.max a.endOffset (off + len)
    fragments := if a.stopped then a.fragments else (off, off + len) :: a.fragments }

/-- `Assembler::read`: bytes are delivered in strict order; fails only with
`IllegalOrderedRead` (after an unordered read). -/
def Assembler.read (a : Assembler) (bufLen : Nat) : Except Unit (Nat × Assembler) :=
  if a.unordered then .error ()
  else
    let avail := reach a.fragments a.bytesRead - a.bytesRead
    let n := Nat.min bufLen avail
    .ok (n, { a with bytesRead := a.bytesRead + n })

/-- `Assembler::read_unordered`: returns some available fragment with its
offset and thereafter poisons ordered reads. -/
def Assembler.readUnordered (a : Assembler) : Option (Nat × Nat) × Assembler :=
  match a.fragments.find? (fun ab => decide (a.bytesRead < ab.2)) with
  | none => (none, { a with unordered := true })
  | some ab =>
    let off := Nat.max ab.1 a.bytesRead
    let len := ab.2 - off
    (some (off, len),
      { a with
        unordered := true
        fragments := a.fragments.erase ab
        bytesRead := a.bytesRead + len })

/-- `Assembler::is_fully_read`: everything observed was delivered and no
out-of-order fragment remains. -/
def Assembler.isFullyRead (a : Assembler) : Bool :=
  decide (a.bytesRead = a.endOffset) && a.fragments.all (fun ab => decide (ab.2 ≤ a.bytesRead))

/-- `Assembler::stop`: latch the flag and drop buffers. -/
def Assembler.stop (a : Assembler) : Assembler :=
  { a with stopped := true, fragments := [] }

/-- `Assembler::clear`: nuke buffered data (used on reset). -/
def Assembler.clear (a : Assembler) : Assembler :=
  { a with fragments := [] }

/-! ## The send buffer, modelled from the spec (§4.4) -/

/-- Modelled from the spec: the send byte-buffer (§4.4).
`offsetW` is `offset()`, the total bytes ever written; `sentTo` is the number
of bytes transmitted at least once (transmission is in order); `ackedBytes`
counts acknowledged bytes (acknowledged ranges are disjoint in well-formed
executions); `retransmits` is the FIFO retransmit queue of ranges. -/
structure SendBuffer where
  offsetW : Nat
  sentTo : Nat
  ackedBytes : Nat
  retransmits : List (Nat × Nat)
  deriving DecidableEq

def SendBuffer.new : SendBuffer :=
  { offsetW := 0, sentTo := 0, ackedBytes := 0, retransmits := [] }

/-- `SendBuffer::write`: append `len` bytes. -/
def SendBuffer.writeB (b : SendBuffer) (len : Nat) : SendBuffer :=
  { b with offsetW := b.offsetW + len }

/-- `SendBuffer::has_unsent_data`. -/
def SendBuffer.hasUnsentData (b : SendBuffer) : Bool :=
  decide (b.sentTo < b.offsetW) || !b.retransmits.isEmpty

/-- `SendBuffer::is_fully_acked`. -/
def SendBuffer.isFullyAcked (b : SendBuffer) : Bool :=
  decide (b.offsetW ≤ b.ackedBytes)

/-- `SendBuffer::unacked`: bytes sent but not acknowledged. -/
def SendBuffer.unacked (b : SendBuffer) : Nat :=
  b.sentTo - b.ackedBytes

/-- `SendBuffer::poll_transmit`: next range to transmit, from the retransmit
queue first (FIFO), else fresh bytes; length at most `maxLen`. -/
def SendBuffer.pollTransmit (b : SendBuffer) (maxLen : Nat) : (Nat × Nat) × SendBuffer :=
  match b.retransmits with
  | (a, e) :: rest =>
    let e' := Nat.min e (a + maxLen)
    ((a, e'), { b with retransmits := if e' < e then (e', e) :: rest else rest })
  | [] =>
    let e := Nat.min b.offsetW (b.sentTo + maxLen)
    ((b.sentTo, e), { b with sentTo := e })

/-- `SendBuffer::ack`: mark the range acknowledged. -/
def SendBuffer.ack (b : SendBuffer) (r : Nat × Nat) : SendBuffer :=
  { b with ackedBytes := b.ackedBytes + (r.2 - r.1) }

/-- `SendBuffer::retransmit`: re-queue a range. -/
def SendBuffer.retransmitRange (b : SendBuffer) (r : Nat × Nat) : SendBuffer :=
  { b with retransmits := b.retransmits ++ [r] }

/-- `SendBuffer::retransmit_all_for_0rtt`: everything becomes unsent again. -/
def SendBuffer.retransmitAll0rtt (b : SendBuffer) : SendBuffer :=
  { b with sentTo := 0, retransmits := [] }

/-! ## Send-side state -/

/-- `SendState`. -/
inductive SendState where
  | ready
  | dataSent (finishAcked : Bool)
  | resetSent
  | dataRecvd
  | resetRecvd
  deriving DecidableEq

/-- `Send`, the per-stream send-side state. -/
structure Send where
  maxData : Nat
  state : SendState
  pending : SendBuffer
  finPending : Bool
  connectionBlocked : Bool
  stopReason : Option Nat
  deriving DecidableEq

def Send.new (maxData : Nat) : Send :=
  { maxData := maxData, state := .ready, pending := SendBuffer.new,
    finPending := false, connectionBlocked := false, stopReason := none }

/-- `Send::is_reset`. -/
def Send.isReset (st : Send) : Bool :=
  match st.state with
  | .resetSent => true
  | .resetRecvd => true
  | _ => false

/-- `Send::is_writable`. -/
def Send.isWritable (st : Send) : Bool :=
  st.state = .ready

/-- `Send::finish`. -/
def Send.finish (st : Send) : Except FinishError Send :=
  match st.stopReason with
  | some errorCode => .error (.stopped errorCode)
  | none =>
    if st.state = .ready then
      .ok { st with state := .dataSent false, finPending := true }
    else
      .error .unknownStream

/-- `Send::write` (the per-stream half); `dataLen` is the length of the
offered slice. -/
def Send.write (st : Send) (dataLen : Nat) : Option (Except WriteError (Nat × Send)) :=
  if !st.isWritable then some (.error .unknownStream)
  else
    match st.stopReason with
    | some errorCode => some (.error (.stopped errorCode))
    | none =>
      match subU st.maxData st.pending.offsetW with
      | none => none
      | some budget =>
        if budget = 0 then some (.error .blocked)
        else
          let len := Nat.min dataLen budget
          some (.ok (len, { st with pending := st.pending.writeB len }))

/-- `Send::reset` (local reset of the send state). -/
def Send.reset (st : Send) : Send :=
  match st.state with
  | .ready => { st with state := .resetSent }
  | .dataSent _ => { st with state := .resetSent }
  | _ => st

/-- `Send::stop`: handle `STOP_SENDING`. -/
def Send.stop (st : Send) (errorCode : Nat) : Send :=
  { st with stopReason := some errorCode }

/-- `Send::ack`. -/
def Send.ack (st : Send) (m : StreamMeta) : Send :=
  let pb := st.pending.ack m.offsets
  match st.state with
  | .dataSent finishAcked =>
    let fa := finishAcked || m.fin
    if fa && pb.isFullyAcked then { st with pending := pb, state := .dataRecvd }
    else { st with pending := pb, state := .dataSent fa }
  | _ => { st with pending := pb }

/-- `Send::increase_max_data`: returns whether the stream was unblocked. -/
def Send.increaseMaxData (st : Send) (offset : Nat) : Bool × Send :=
  if offset ≤ st.maxData ∨ st.state ≠ .ready then (false, st)
  else
    let wasBlocked := st.pending.offsetW = st.maxData
    (wasBlocked, { st with maxData := offset })

/-- `Send::offset`. -/
def Send.offset (st : Send) : Nat := st.pending.offsetW

/-- `Send::is_pending`. -/
def Send.isPending (st : Send) : Bool :=
  st.pending.hasUnsentData || st.finPending

/-! ## Recv-side state -/

/-- `RecvState`. -/
inductive RecvState where
  | recv (size : Option Nat)
  | resetRecvd (size : Nat) (errorCode : Nat)
  | closed
  deriving DecidableEq

/-- `Recv`, the per-stream receive-side state. -/
structure Recv where
  state : RecvState
  assembler : Assembler
  sentMaxStreamData : Nat
  deriving DecidableEq

def Recv.new : Recv :=
  { state := .recv none, assembler := Assembler.new, sentMaxStreamData := 0 }

/-- `Recv::receiving_unknown_size`. -/
def Recv.receivingUnknownSize (rs : Recv) : Bool :=
  rs.state = RecvState.recv none

/-- `Recv::is_finished`: no more data expected from the peer. -/
def Recv.isFinished (rs : Recv) : Bool :=
  match rs.state with
  | .recv _ => false
  | _ => true

/-- `Recv::is_closed`. -/
def Recv.isClosed (rs : Recv) : Bool :=
  rs.state = RecvState.closed

/-- `Recv::final_offset`. -/
def Recv.finalOffset (rs : Recv) : Option Nat :=
  match rs.state with
  | .recv size => size
  | .resetRecvd size _ => some size
  | .closed => none

/-- The second half of `Recv::ingest` (after the final-size validation). -/
def Recv.ingestTail (rs : Recv) (f : StreamFrame) (endO received maxData receiveWindow : Nat) :
    Option (Except TransportError (Nat × Recv)) :=
  let prevEnd := rs.assembler.endOffset
  let newBytes := endO - prevEnd
  match addU rs.assembler.bytesRead receiveWindow, addU received newBytes with
  | none, _ => none
  | _, none => none
  | some streamMaxData, some rcvd =>
  if streamMaxData < endO ∨ maxData < rcvd then some (.error .flowControlError)
  else
    let rs1 :=
      if f.fin then
        if rs.assembler.stopped then { rs with state := .closed }
        else
          match rs.state with
          | .recv _ => { rs with state := .recv (some endO) }
          | _ => rs
      else rs
    some (.ok (newBytes, { rs1 with assembler := rs1.assembler.insert f.offset f.dataLen }))

/-- `Recv::ingest`: validate and buffer an incoming stream frame; returns the
number of new bytes past the previous high-water mark. -/
def Recv.ingest (rs : Recv) (f : StreamFrame) (received maxData receiveWindow : Nat) :
    Option (Except TransportError (Nat × Recv)) :=
  match addU f.offset f.dataLen with
  | none => none
  | some endO =>
  if 2 ^ 62 ≤ endO then some (.error .flowControlError)
  else
    match rs.finalOffset with
    | some finalOffset =>
      if finalOffset < endO ∨ (f.fin ∧ endO ≠ finalOffset) then
        some (.error .finalSizeError)
      else Recv.ingestTail rs f endO received maxData receiveWindow
    | none => Recv.ingestTail rs f endO received maxData receiveWindow

/-- `Recv::read_blocked`. -/
def Recv.readBlocked (rs : Recv) : Except ReadError Unit × Recv :=
  match rs.state with
  | .resetRecvd _ errorCode => (.error (.reset errorCode), { rs with state := .closed })
  | .closed => (.error .unknownStream, rs)
  | .recv size =>
    if size = some rs.assembler.endOffset ∧ rs.assembler.isFullyRead then
      (.ok (), { rs with state := .closed })
    else
      (.error .blocked, rs)

/-- `Recv::read` (ordered). -/
def Recv.read (rs : Recv) (bufLen : Nat) : Except ReadError (Option Nat) × Recv :=
  if rs.assembler.stopped then (.error .unknownStream, rs)
  else
    match rs.assembler.read bufLen with
    | .error _ => (.error .illegalOrderedRead, rs)
    | .ok (n, a') =>
      if 0 < n then (.ok (some n), { rs with assembler := a' })
      else
        let (r, rs') := Recv.readBlocked { rs with assembler := a' }
        (r.map (fun _ => none), rs')

/-- `Recv::read_unordered`; on success returns `(length, offset)`. -/
def Recv.readUnordered (rs : Recv) : Except ReadError (Option (Nat × Nat)) × Recv :=
  if rs.assembler.stopped then (.error .unknownStream, rs)
  else
    match rs.assembler.readUnordered with
    | (some (off, len), a') => (.ok (some (len, off)), { rs with assembler := a' })
    | (none, a') =>
      let (r, rs') := Recv.readBlocked { rs with assembler := a' }
      (r.map (fun _ => none), rs')

/-- `Recv::max_stream_data`: the window to advertise in `MAX_STREAM_DATA`
and whether transmitting it now is worthwhile. -/
def Recv.maxStreamData (rs : Recv) (streamReceiveWindow : Nat) : Option (Nat × Bool) :=
  match addU rs.assembler.bytesRead streamReceiveWindow with
  | none => none
  | some maxStreamData =>
    match subU maxStreamData rs.sentMaxStreamData with
    | none => none
    | some diff =>
      some (maxStreamData, rs.receivingUnknownSize && decide (streamReceiveWindow / 8 ≤ diff))

/-- `Recv::record_sent_max_stream_data`. -/
def Recv.recordSentMaxStreamData (rs : Recv) (sentValue : Nat) : Recv :=
  if rs.sentMaxStreamData < sentValue then { rs with sentMaxStreamData := sentValue } else rs

/-- `Recv::reset`: returns `false` iff the reset was redundant. -/
def Recv.reset (rs : Recv) (errorCode finalOffset : Nat) : Bool × Recv :=
  match rs.state with
  | .resetRecvd _ _ => (false, rs)
  | .closed => (false, rs)
  | .recv _ =>
    (true, { rs with state := .resetRecvd finalOffset errorCode, assembler := rs.assembler.clear })

/-! ## Results returned to the application -/

/-- `ReadResult`; `ShouldTransmit` values are booleans. -/
structure ReadResult where
  len : Nat
  maxStreamData : Bool
  maxData : Bool
  deriving DecidableEq

/-- `ReadUnorderedResult`; the returned `Bytes` chunk is represented by its
length. -/
structure ReadUnorderedResult where
  len : Nat
  offset : Nat
  maxStreamData : Bool
  maxData : Bool
  deriving DecidableEq

/-- `StopResult`. -/
structure StopResult where
  stopSending : Bool
  maxData : Bool
  deriving DecidableEq

/-- Modelled from the spec: the `Retransmits` queues handed to
`write_control_frames` (only the fields that function touches). -/
structure Retransmits where
  resetStream : List (StreamId × Nat)
  stopSending : List StopSendingFrame
  maxData : Bool
  maxStreamData : List StreamId
  maxUniStreamId : Bool
  maxBiStreamId : Bool
  deriving DecidableEq

/-- Modelled from the spec: worst-case encoded size of a RESET_STREAM frame
(`frame::ResetStream::SIZE_BOUND`). -/
def RESETSTREAMSIZEBOUND : Nat := 25

/-- Modelled from the spec: worst-case encoded size of a STOP_SENDING frame
(`frame::StopSending::SIZE_BOUND`). -/
def STOPSENDINGSIZEBOUND : Nat := 17

/-- Modelled from the spec: worst-case encoded size of a STREAM frame header
(`frame::Stream::SIZE_BOUND`). -/
def STREAMSIZEBOUND : Nat := 25

/-! ## The `Streams` manager -/

/-- `Streams`, the connection-wide stream manager.  Array fields indexed by
directionality become functions from `Dir`; the two hash maps become
function maps. -/
structure Streams where
  side : Side
  send : StreamId → Option Send
  recv : StreamId → Option Recv
  next : Dir → Nat
  max : Dir → Nat
  maxRemote : Dir → Nat
  nextRemote : Dir → Nat
  opened : Dir → Bool
  nextReportedRemote : Dir → Nat
  sendStreams : Nat
  pending : List StreamId
  events : List StreamEvent
  connectionBlocked : List StreamId
  maxData : Nat
  receiveWindow : Nat
  localMaxData : Nat
  sentMaxData : Nat
  dataSent : Nat
  dataRecvd : Nat
  unackedData : Nat
  sendWindow : Nat
  streamReceiveWindow : Nat

/-- `Streams::insert`: install the send/recv halves for a new stream id.
The `assert!` on double insertion is a panic, modelled as `none`. -/
def insertPair (snd : StreamId → Option Send) (rcv : StreamId → Option Recv)
    (params : Option TransportParameters) (remote : Bool) (id : StreamId) :
    Option ((StreamId → Option Send) × (StreamId → Option Recv)) :=
  let bi := id.dir = Dir.bi
  let sndStep : Option (StreamId → Option Send) :=
    if bi ∨ remote = false then
      let maxData :=
        match params with
        | none => 0
        | some p =>
          match id.dir with
          | .uni => p.initialMaxStreamDataUni
          | .bi => if remote then p.initialMaxStreamDataBidiLocal else p.initialMaxStreamDataBidiRemote
      match snd id with
      | some _ => none
      | none => some (upd snd id (some (Send.new maxData)))
    else some snd
  match sndStep with
  | none => none
  | some snd' =>
    let rcvStep : Option (StreamId → Option Recv) :=
      if bi ∨ remote then
        match rcv id with
        | some _ => none
        | none => some (upd rcv id (some Recv.new))
      else some rcv
    match rcvStep with
    | none => none
    | some rcv' => some (snd', rcv')

/-- The pre-creation loop of `Streams::new` for one directionality: insert
remote streams `0, ..., n-1`. -/
def newLoop (side : Side) (dir : Dir)
    (snd : StreamId → Option Send) (rcv : StreamId → Option Recv) :
    Nat → Option ((StreamId → Option Send) × (StreamId → Option Recv))
  | 0 => some (snd, rcv)
  | n + 1 =>
    match newLoop side dir snd rcv n with
    | none => none
    | some (snd', rcv') => insertPair snd' rcv' none true (StreamId.mk side.other dir n)

/-- `Streams::new`. -/
def Streams.new (side : Side) (maxRemoteUni maxRemoteBi sendWindow receiveWindow
    streamReceiveWindow : Nat) : Option Streams :=
  let base : Streams :=
    { side := side
      send := fun _ => none
      recv := fun _ => none
      next := fun _ => 0
      max := fun _ => 0
      maxRemote := fun d => match d with | .bi => maxRemoteBi | .uni => maxRemoteUni
      nextRemote := fun _ => 0
      opened := fun _ => false
      nextReportedRemote := fun _ => 0
      sendStreams := 0
      pending := []
      events := []
      connectionBlocked := []
      maxData := 0
      receiveWindow := receiveWindow
      localMaxData := receiveWindow
      sentMaxData := receiveWindow
      dataSent := 0
      dataRecvd := 0
      unackedData := 0
      sendWindow := sendWindow
      streamReceiveWindow := streamReceiveWindow }
  match newLoop side Dir.bi base.send base.recv maxRemoteBi with
  | none => none
  | some (snd1, rcv1) =>
    match newLoop side Dir.uni snd1 rcv1 maxRemoteUni with
    | none => none
    | some (snd2, rcv2) => some { base with send := snd2, recv := rcv2 }

/-- `Streams::open` (named `openStream`: `open` is a Lean keyword). -/
def Streams.openStream (s : Streams) (params : TransportParameters) (dir : Dir) :
    Option (Option StreamId × Streams) :=
  if s.max dir ≤ s.next dir then some (none, s)
  else
    let nxt := s.next dir + 1
    let id := StreamId.mk s.side dir (nxt - 1)
    match insertPair s.send s.recv (some params) false id with
    | none => none
    | some (snd', rcv') =>
      some (some id,
        { s with next := upd s.next dir nxt, send := snd', recv := rcv',
                 sendStreams := s.sendStreams + 1 })

/-- `Streams::received_max_data`. -/
def Streams.receivedMaxData (s : Streams) (n : Nat) : Streams :=
  { s with maxData := Nat.max s.maxData n }

/-- The loop of `Streams::set_params` seeding `max_data` on every
pre-allocated remote bidi send half; the `.unwrap()` is a panic. -/
def setParamsLoop (side : Side) (v : Nat) (snd : StreamId → Option Send) :
    Nat → Option (StreamId → Option Send)
  | 0 => some snd
  | n + 1 =>
    match setParamsLoop side v snd n with
    | none => none
    | some m =>
      let id := StreamId.mk side.other Dir.bi n
      match m id with
      | none => none
      | some st => some (upd m id (some { st with maxData := v }))

/-- `Streams::set_params`. -/
def Streams.setParams (s : Streams) (params : TransportParameters) : Option Streams :=
  let s1 := { s with
    max := upd (upd s.max Dir.bi params.initialMaxStreamsBidi) Dir.uni params.initialMaxStreamsUni }
  let s2 := s1.receivedMaxData params.initialMaxData
  match setParamsLoop s2.side params.initialMaxStreamDataBidiLocal s2.send
    (s2.maxRemote Dir.bi) with
  | none => none
  | some snd' => some { s2 with send := snd' }

/-- `Streams::alloc_remote_stream`. -/
def Streams.allocRemoteStream (s : Streams) (params : TransportParameters) (dir : Dir) :
    Option Streams :=
  let mr := s.maxRemote dir + 1
  let id := StreamId.mk s.side.other dir (mr - 1)
  match insertPair s.send s.recv (some params) true id with
  | none => none
  | some (snd', rcv') =>
    some { s with maxRemote := upd s.maxRemote dir mr, send := snd', recv := rcv' }

/-- `Streams::accept`. -/
def Streams.accept (s : Streams) (dir : Dir) : Option StreamId × Streams :=
  if s.nextRemote dir = s.nextReportedRemote dir then (none, s)
  else
    let x := s.nextReportedRemote dir
    let s1 := { s with nextReportedRemote := upd s.nextReportedRemote dir (x + 1) }
    let s2 := if dir = Dir.bi then { s1 with sendStreams := s1.sendStreams + 1 } else s1
    (some (StreamId.mk s.side.other dir x), s2)

/-- The per-direction removal loop of `Streams::zero_rtt_rejected`: remove
locally-initiated streams `0, ..., n-1`; the `.unwrap()`s are panics. -/
def zeroRttLoop (side : Side) (dir : Dir)
    (snd : StreamId → Option Send) (rcv : StreamId → Option Recv) :
    Nat → Option ((StreamId → Option Send) × (StreamId → Option Recv))
  | 0 => some (snd, rcv)
  | n + 1 =>
    match zeroRttLoop side dir snd rcv n with
    | none => none
    | some (snd', rcv') =>
    let id := StreamId.mk side dir n
    match snd' id with
    | none => none
    | some _ =>
      let snd2 := upd snd' id none
      if dir = Dir.bi then
        match rcv' id with
        | none => none
        | some _ => some (snd2, upd rcv' id none)
      else some (snd2, rcv')

/-- `Streams::zero_rtt_rejected`. -/
def Streams.zeroRttRejected (s : Streams) : Option Streams :=
  match zeroRttLoop s.side Dir.bi s.send s.recv (s.next Dir.bi) with
  | none => none
  | some (snd1, rcv1) =>
    match zeroRttLoop s.side Dir.uni snd1 rcv1 (s.next Dir.uni) with
    | none => none
    | some (snd2, rcv2) =>
      some { s with send := snd2, recv := rcv2, next := fun _ => 0,
                    pending := [], dataSent := 0, connectionBlocked := [] }

/-- `Streams::add_read_credits`. -/
def Streams.addReadCredits (s : Streams) (credits : Nat) : Option (Bool × Streams) :=
  let lmd := satAdd s.localMaxData credits
  let s' := { s with localMaxData := lmd }
  if VARINTMAX < lmd then some (false, s')
  else
    match subU lmd s.sentMaxData with
    | none => none
    | some diff => some (decide (s.receiveWindow / 8 ≤ diff), s')

/-- `Streams::record_sent_max_data`. -/
def Streams.recordSentMaxData (s : Streams) (sentValue : Nat) : Streams :=
  if s.sentMaxData < sentValue then { s with sentMaxData := sentValue } else s

/-- `Streams::is_local_unopened`. -/
def Streams.isLocalUnopened (s : Streams) (id : StreamId) : Bool :=
  s.next id.dir ≤ id.index

/-- `Streams::validate_receive_id`. -/
def Streams.validateReceiveId (s : Streams) (id : StreamId) : Except TransportError Unit :=
  if id.initiator = s.side then
    match id.dir with
    | .uni => .error .streamStateError
    | .bi => if s.next Dir.bi ≤ id.index then .error .streamStateError else .ok ()
  else if s.maxRemote id.dir ≤ id.index then .error .streamLimitError
  else .ok ()

/-- `Streams::flow_blocked`. -/
def Streams.flowBlocked (s : Streams) : Bool :=
  decide (s.maxData ≤ s.dataSent) || decide (s.sendWindow ≤ s.unackedData)

/-- `Streams::on_stream_frame`. -/
def Streams.onStreamFrame (s : Streams) (notifyReadable : Bool) (stream : StreamId) : Streams :=
  if stream.initiator = s.side then
    if notifyReadable then { s with events := s.events ++ [StreamEvent.readable stream] } else s
  else if s.nextRemote stream.dir ≤ stream.index then
    { s with nextRemote := upd s.nextRemote stream.dir (stream.index + 1),
             opened := upd s.opened stream.dir true }
  else if notifyReadable then { s with events := s.events ++ [StreamEvent.readable stream] }
  else s

/-- The connection-level budget computed at the start of `Streams::write`:
`(max_data - data_sent).min(send_window - unacked_data)`, with checked
subtractions. -/
def Streams.writeLimit (s : Streams) : Option Nat :=
  match subU s.maxData s.dataSent with
  | none => none
  | some a =>
    match subU s.sendWindow s.unackedData with
    | none => none
    | some b => some (Nat.min a b)

/-- `Streams::write`; `dataLen` is the length of the offered slice. -/
def Streams.write (s : Streams) (id : StreamId) (dataLen : Nat) :
    Option (Except WriteError Nat × Streams) :=
  match s.writeLimit with
  | none => none
  | some limit =>
  match s.send id with
  | none => some (.error .unknownStream, s)
  | some st =>
    if limit = 0 then
      if st.connectionBlocked then some (.error .blocked, s)
      else
        some (.error .blocked,
          { s with send := upd s.send id (some { st with connectionBlocked := true }),
                   connectionBlocked := id :: s.connectionBlocked })
    else
      let wasPending := st.isPending
      match st.write (Nat.min dataLen limit) with
      | none => none
      | some (.error e) => some (.error e, s)
      | some (.ok (len, st')) =>
        match addU s.dataSent len, addU s.unackedData len with
        | none, _ => none
        | _, none => none
        | some ds, some ua =>
          some (.ok len,
            { s with send := upd s.send id (some st'), dataSent := ds, unackedData := ua,
                     pending := if wasPending then s.pending else s.pending ++ [id] })

/-- `Streams::read`. -/
def Streams.read (s : Streams) (id : StreamId) (bufLen : Nat) :
    Option (Except ReadError (Option ReadResult) × Streams) :=
  match s.recv id with
  | none => some (.error .unknownStream, s)
  | some rs =>
    match rs.read bufLen with
    | (.ok (some len), rs') =>
      match rs'.maxStreamData s.streamReceiveWindow with
      | none => none
      | some (_, transmitMaxStreamData) =>
        match Streams.addReadCredits { s with recv := upd s.recv id (some rs') } len with
        | none => none
        | some (transmitMaxData, s1) =>
          some (.ok (some { len := len, maxStreamData := transmitMaxStreamData,
                            maxData := transmitMaxData }), s1)
    | (.ok none, _) => some (.ok none, { s with recv := upd s.recv id none })
    | (.error (.reset errorCode), _) =>
      some (.error (.reset errorCode), { s with recv := upd s.recv id none })
    | (.error e, rs') => some (.error e, { s with recv := upd s.recv id (some rs') })

/-- `Streams::read_unordered`. -/
def Streams.readUnordered (s : Streams) (id : StreamId) :
    Option (Except ReadError (Option ReadUnorderedResult) × Streams) :=
  match s.recv id with
  | none => some (.error .unknownStream, s)
  | some rs =>
    match rs.readUnordered with
    | (.ok (some (len, off)), rs') =>
      match rs'.maxStreamData s.streamReceiveWindow with
      | none => none
      | some (_, transmitMaxStreamData) =>
        match Streams.addReadCredits { s with recv := upd s.recv id (some rs') } len with
        | none => none
        | some (transmitMaxData, s1) =>
          some (.ok (some { len := len, offset := off, maxStreamData := transmitMaxStreamData,
                            maxData := transmitMaxData }), s1)
    | (.ok none, _) => some (.ok none, { s with recv := upd s.recv id none })
    | (.error (.reset errorCode), _) =>
      some (.error (.reset errorCode), { s with recv := upd s.recv id none })
    | (.error e, rs') => some (.error e, { s with recv := upd s.recv id (some rs') })

/-- `Streams::received`. -/
def Streams.received (s : Streams) (f : StreamFrame) :
    Option (Except TransportError Bool × Streams) :=
  match s.validateReceiveId f.id with
  | .error e => some (.error e, s)
  | .ok _ =>
    match s.recv f.id with
    | none => some (.ok false, s)
    | some rs =>
      if rs.isFinished then some (.ok false, s)
      else
        match rs.ingest f s.dataRecvd s.localMaxData s.streamReceiveWindow with
        | none => none
        | some (.error e) => some (.error e, s)
        | some (.ok (newBytes, rs')) =>
          match addU s.dataRecvd newBytes with
          | none => none
          | some dr =>
            let s1 := { s with dataRecvd := dr, recv := upd s.recv f.id (some rs') }
            if rs'.assembler.stopped = false then
              some (.ok false, s1.onStreamFrame true f.id)
            else
              let s2 := if rs'.isClosed then { s1 with recv := upd s1.recv f.id none } else s1
              match s2.addReadCredits newBytes with
              | none => none
              | some (t, s3) => some (.ok t, s3)

/-- `Streams::received_reset`. -/
def Streams.receivedReset (s : Streams) (f : ResetStreamFrame) :
    Option (Except TransportError Bool × Streams) :=
  match s.validateReceiveId f.id with
  | .error e => some (.error e, s)
  | .ok _ =>
    match s.recv f.id with
    | none => some (.ok false, s)
    | some rs =>
      let endO := rs.assembler.endOffset
      let finalOk : Except TransportError Unit :=
        match rs.finalOffset with
        | some offset => if offset ≠ f.finalOffset then .error .finalSizeError else .ok ()
        | none => if f.finalOffset < endO then .error .finalSizeError else .ok ()
      match finalOk with
      | .error e => some (.error e, s)
      | .ok _ =>
        match rs.reset f.errorCode f.finalOffset with
        | (false, _) => some (.ok false, s)
        | (true, rs') =>
          let bytesRead := rs'.assembler.bytesRead
          let stopped := rs'.assembler.stopped
          let s1 :=
            if stopped then { s with recv := upd s.recv f.id none }
            else { s with recv := upd s.recv f.id (some rs') }
          let s2 := s1.onStreamFrame (!stopped) f.id
          if bytesRead ≠ f.finalOffset then
            match subU f.finalOffset endO, subU f.finalOffset bytesRead with
            | none, _ => none
            | _, none => none
            | some delta, some credits =>
              match addU s2.dataRecvd delta with
              | none => none
              | some dr =>
                match Streams.addReadCredits { s2 with dataRecvd := dr } credits with
                | none => none
                | some (t, s3) => some (.ok t, s3)
          else some (.ok false, s2)

/-- `Streams::received_stop_sending`. -/
def Streams.receivedStopSending (s : Streams) (id : StreamId) (errorCode : Nat) : Streams :=
  match s.send id with
  | none => s
  | some st =>
    let s1 := { s with events := s.events ++ [StreamEvent.stopped id errorCode],
                       send := upd s.send id (some (st.stop errorCode)) }
    s1.onStreamFrame false id

/-- `Streams::finish`. -/
def Streams.finish (s : Streams) (id : StreamId) : Except FinishError Unit × Streams :=
  match s.send id with
  | none => (.error .unknownStream, s)
  | some st =>
    let wasPending := st.isPending
    match st.finish with
    | .error e => (.error e, s)
    | .ok st' =>
      (.ok (),
        { s with send := upd s.send id (some st'),
                 pending := if wasPending then s.pending else s.pending ++ [id] })

/-- `Streams::reset` (the application abandoning its send half); the error is
`UnknownStream`. -/
def Streams.reset (s : Streams) (id : StreamId) : Option (Except Unit Unit × Streams) :=
  match s.send id with
  | none => some (.error (), s)
  | some st =>
    if st.state = .resetSent ∨ st.state = .resetRecvd then some (.error (), s)
    else
      match subU s.unackedData st.pending.unacked with
      | none => none
      | some ua =>
        some (.ok (),
          { s with unackedData := ua, send := upd s.send id (some st.reset) })

/-- `Streams::reset_acked`. -/
def Streams.resetAcked (s : Streams) (id : StreamId) : Option Streams :=
  match s.send id with
  | none => some s
  | some st =>
    if st.state = .resetSent then
      match subU s.sendStreams 1 with
      | none => none
      | some ss => some { s with sendStreams := ss, send := upd s.send id none }
    else some s

/-- `Streams::stop`; the error is `UnknownStream`. -/
def Streams.stop (s : Streams) (id : StreamId) : Option (Except Unit StopResult × Streams) :=
  match s.recv id with
  | none => some (.error (), s)
  | some rs =>
    if rs.assembler.stopped then some (.error (), s)
    else
      let rs' := { rs with assembler := rs.assembler.stop }
      let stopSending := !rs'.isFinished
      match subU rs'.assembler.endOffset rs'.assembler.bytesRead with
      | none => none
      | some readCredits =>
        match Streams.addReadCredits { s with recv := upd s.recv id (some rs') } readCredits with
        | none => none
        | some (maxData, s1) =>
          some (.ok { stopSending := stopSending, maxData := maxData }, s1)

/-- `Streams::received_ack_of`. -/
def Streams.receivedAckOf (s : Streams) (m : StreamMeta) : Option Streams :=
  match s.send m.id with
  | none => some s
  | some st =>
    if st.isReset then some s
    else
      match subU m.offsets.2 m.offsets.1 with
      | none => none
      | some len =>
        match subU s.unackedData len with
        | none => none
        | some ua =>
          let st' := st.ack m
          if st'.state = .dataRecvd then
            match subU s.sendStreams 1 with
            | none => none
            | some ss =>
              some { s with unackedData := ua, sendStreams := ss,
                            send := upd s.send m.id none,
                            events := s.events ++ [StreamEvent.finished m.id] }
          else
            some { s with unackedData := ua, send := upd s.send m.id (some st') }

/-- `Streams::retransmit`. -/
def Streams.retransmit (s : Streams) (m : StreamMeta) : Streams :=
  match s.send m.id with
  | none => s
  | some st =>
    let pnd := if st.isPending then s.pending else s.pending ++ [m.id]
    { s with pending := pnd,
             send := upd s.send m.id
               (some { st with finPending := st.finPending || m.fin,
                               pending := st.pending.retransmitRange m.offsets }) }

/-- The per-direction loop of `Streams::retransmit_all_for_0rtt` over
locally-initiated (client) streams `0, ..., n-1`; `.unwrap()` is a panic. -/
def retransmitAllLoop (dir : Dir) (snd : StreamId → Option Send) (pnd : List StreamId) :
    Nat → Option ((StreamId → Option Send) × List StreamId)
  | 0 => some (snd, pnd)
  | n + 1 =>
    match retransmitAllLoop dir snd pnd n with
    | none => none
    | some (snd', pnd') =>
    let id := StreamId.mk Side.client dir n
    match snd' id with
    | none => none
    | some st =>
      if st.pending.isFullyAcked && !st.finPending then some (snd', pnd')
      else
        let pnd2 := if st.isPending then pnd' else pnd' ++ [id]
        some (upd snd' id (some { st with pending := st.pending.retransmitAll0rtt }), pnd2)

/-- `Streams::retransmit_all_for_0rtt`. -/
def Streams.retransmitAllFor0rtt (s : Streams) : Option Streams :=
  match retransmitAllLoop Dir.bi s.send s.pending (s.next Dir.bi) with
  | none => none
  | some (snd1, pnd1) =>
    match retransmitAllLoop Dir.uni snd1 pnd1 (s.next Dir.uni) with
    | none => none
    | some (snd2, pnd2) => some { s with send := snd2, pending := pnd2 }

/-- `Streams::received_max_streams`. -/
def Streams.receivedMaxStreams (s : Streams) (dir : Dir) (count : Nat) :
    Except TransportError Unit × Streams :=
  if MAXSTREAMCOUNT < count then (.error .frameEncodingError, s)
  else if s.max dir < count then
    (.ok (), { s with max := upd s.max dir count, events := s.events ++ [StreamEvent.available dir] })
  else (.ok (), s)

/-- `Streams::received_max_stream_data`. -/
def Streams.receivedMaxStreamData (s : Streams) (id : StreamId) (offset : Nat) :
    Except TransportError Unit × Streams :=
  if id.initiator ≠ s.side ∧ id.dir = Dir.uni then (.error .streamStateError, s)
  else
    match s.send id with
    | some ss =>
      let (wasBlocked, ss') := ss.increaseMaxData offset
      let s1 := { s with send := upd s.send id (some ss') }
      let s2 := if wasBlocked then { s1 with events := s1.events ++ [StreamEvent.writable id] } else s1
      (.ok (), s2.onStreamFrame false id)
    | none =>
      if id.initiator = s.side ∧ s.isLocalUnopened id then (.error .streamStateError, s)
      else (.ok (), s.onStreamFrame false id)

/-- The loop of `Streams::poll_unblocked` over the `connection_blocked`
stack; the `debug_assert!` is a panic. -/
def pollUnblockedLoop (snd : StreamId → Option Send) :
    List StreamId → Option (Option StreamId × List StreamId × (StreamId → Option Send))
  | [] => some (none, [], snd)
  | id :: rest =>
    match snd id with
    | none => pollUnblockedLoop snd rest
    | some st =>
      if st.connectionBlocked = false then none
      else
        let snd' := upd snd id (some { st with connectionBlocked := false })
        if st.isWritable then some (some id, rest, snd')
        else pollUnblockedLoop snd' rest

/-- `Streams::poll_unblocked`. -/
def Streams.pollUnblocked (s : Streams) : Option (Option StreamId × Streams) :=
  if s.flowBlocked then some (none, s)
  else
    match pollUnblockedLoop s.send s.connectionBlocked with
    | none => none
    | some (r, cb, snd') => some (r, { s with connectionBlocked := cb, send := snd' })

/-- `Streams::poll`.  `Dir::iter().find(mem::replace(..))` scans `Bi` then
`Uni`, clearing the scanned flags; flags scanned before the hit were already
false, so the net effect is clearing the returned direction's flag. -/
def Streams.poll (s : Streams) : Option (Option StreamEvent × Streams) :=
  if s.opened Dir.bi then
    some (some (.opened Dir.bi), { s with opened := upd s.opened Dir.bi false })
  else if s.opened Dir.uni then
    some (some (.opened Dir.uni), { s with opened := upd s.opened Dir.uni false })
  else
    match s.pollUnblocked with
    | none => none
    | some (r, s1) =>
      match r with
      | some id => some (some (.writable id), s1)
      | none =>
        match s1.events with
        | [] => some (none, s1)
        | e :: rest => some (some e, { s1 with events := rest })

/-- `Streams::can_send`. -/
def Streams.canSend (s : Streams) : Bool :=
  !s.pending.isEmpty

/-- `Streams::stop_reason`; the error is `UnknownStream`. -/
def Streams.stopReason (s : Streams) (id : StreamId) : Except Unit (Option Nat) :=
  match s.send id with
  | some st => .ok st.stopReason
  | none => .error ()

/-- The RESET_STREAM loop of `write_control_frames`: drain the queued
`(id, error_code)` pairs while the buffer has room, moving emitted entries to
`sent` and skipping streams no longer in the send map.  `bufLen` is the
serialized length so far; encoded frames are counted at their worst-case
size. -/
def wcfResetLoop (snd : StreamId → Option Send) (maxSize : Nat) :
    List (StreamId × Nat) → List (StreamId × Nat) → Nat →
    List (StreamId × Nat) × List (StreamId × Nat) × Nat
  | pend, sentAcc, bufLen =>
    if bufLen + RESETSTREAMSIZEBOUND < maxSize then
      match pend with
      | [] => ([], sentAcc, bufLen)
      | (id, ec) :: rest =>
        match snd id with
        | none => wcfResetLoop snd maxSize rest sentAcc bufLen
        | some _ => wcfResetLoop snd maxSize rest ((id, ec) :: sentAcc) (bufLen + RESETSTREAMSIZEBOUND)
    else (pend, sentAcc, bufLen)

/-- The STOP_SENDING loop of `write_control_frames`. -/
def wcfStopLoop (rcv : StreamId → Option Recv) (maxSize : Nat) :
    List StopSendingFrame → List StopSendingFrame → Nat →
    List StopSendingFrame × List StopSendingFrame × Nat
  | pend, sentAcc, bufLen =>
    if bufLen + STOPSENDINGSIZEBOUND < maxSize then
      match pend with
      | [] => ([], sentAcc, bufLen)
      | fr :: rest =>
        match rcv fr.id with
        | none => wcfStopLoop rcv maxSize rest sentAcc bufLen
        | some rs =>
          if rs.isFinished then wcfStopLoop rcv maxSize rest sentAcc bufLen
          else wcfStopLoop rcv maxSize rest (fr :: sentAcc) (bufLen + STOPSENDINGSIZEBOUND)
    else (pend, sentAcc, bufLen)

/-- The MAX_STREAM_DATA loop of `write_control_frames`. -/
def wcfMsdLoop (streamReceiveWindow maxSize : Nat) (rcv : StreamId → Option Recv) :
    List StreamId → List StreamId → Nat →
    Option ((StreamId → Option Recv) × List StreamId × List StreamId × Nat)
  | pend, sentAcc, bufLen =>
    if bufLen + 17 < maxSize then
      match pend with
      | [] => some (rcv, [], sentAcc, bufLen)
      | id :: rest =>
        match rcv id with
        | none => wcfMsdLoop streamReceiveWindow maxSize rcv rest sentAcc bufLen
        | some rs =>
          if rs.isFinished then wcfMsdLoop streamReceiveWindow maxSize rcv rest sentAcc bufLen
          else
            match rs.maxStreamData streamReceiveWindow with
            | none => none
            | some (mx, _) =>
              wcfMsdLoop streamReceiveWindow maxSize
                (upd rcv id (some (rs.recordSentMaxStreamData mx))) rest (id :: sentAcc) (bufLen + 17)
    else some (rcv, pend, sentAcc, bufLen)

/-- `Streams::write_control_frames`; returns the updated manager, the updated
`pending` and `sent` retransmit sets, and the new buffer length (the
`FrameStats` counters are write-only and omitted). -/
def Streams.writeControlFrames (s : Streams) (pend sent : Retransmits) (bufLen maxSize : Nat) :
    Option (Streams × Retransmits × Retransmits × Nat) :=
  let (rsPend, rsSent, b1) := wcfResetLoop s.send maxSize pend.resetStream sent.resetStream bufLen
  let (ssPend, ssSent, b2) := wcfStopLoop s.recv maxSize pend.stopSending sent.stopSending b1
  let doMaxData := pend.maxData && decide (b2 + 9 < maxSize)
  let sentValue := Nat.min s.localMaxData VARINTMAX
  let s3 := if doMaxData then s.recordSentMaxData sentValue else s
  let b3 := if doMaxData then b2 + 9 else b2
  match wcfMsdLoop s.streamReceiveWindow maxSize s3.recv pend.maxStreamData sent.maxStreamData b3 with
  | none => none
  | some (rcv4, msdPend, msdSent, b4) =>
  let doUni := pend.maxUniStreamId && decide (b4 + 9 < maxSize)
  let b5 := if doUni then b4 + 9 else b4
  let doBi := pend.maxBiStreamId && decide (b5 + 9 < maxSize)
  let b6 := if doBi then b5 + 9 else b5
  some ({ s3 with recv := rcv4 },
    { resetStream := rsPend, stopSending := ssPend,
      maxData := if doMaxData then false else pend.maxData,
      maxStreamData := msdPend,
      maxUniStreamId := if doUni then false else pend.maxUniStreamId,
      maxBiStreamId := if doBi then false else pend.maxBiStreamId },
    { resetStream := rsSent, stopSending := ssSent,
      maxData := if doMaxData then true else sent.maxData,
      maxStreamData := msdSent,
      maxUniStreamId := if doUni then true else sent.maxUniStreamId,
      maxBiStreamId := if doBi then true else sent.maxBiStreamId },
    b6)

/-- The round-robin loop of `Streams::write_stream_frames` over the pending
queue.  A popped stream that emits a frame and still has work is re-queued at
the back; the buffer grows by the frame's (worst-case) header size plus its
payload. -/
def wsfLoop (snd : StreamId → Option Send) (pend : List StreamId)
    (bufLen maxBufSize : Nat) (acc : List StreamMeta) :
    (StreamId → Option Send) × List StreamId × Nat × List StreamMeta :=
  if h : bufLen + STREAMSIZEBOUND < maxBufSize then
    match pend with
    | [] => (snd, [], bufLen, acc)
    | id :: rest =>
      match snd id with
      | none => wsfLoop snd rest bufLen maxBufSize acc
      | some st =>
        if st.isReset then wsfLoop snd rest bufLen maxBufSize acc
        else
          let maxDataLen := maxBufSize - (bufLen + STREAMSIZEBOUND)
          let (offs, pb) := st.pending.pollTransmit maxDataLen
          let isDataSent : Bool := match st.state with | .dataSent _ => true | _ => false
          let fin := decide (offs.2 = st.pending.offsetW) && isDataSent
          let st' := { st with pending := pb, finPending := if fin then false else st.finPending }
          let snd' := upd snd id (some st')
          let pend' := if st'.isPending then rest ++ [id] else rest
          wsfLoop snd' pend' (bufLen + STREAMSIZEBOUND + (offs.2 - offs.1)) maxBufSize
            (acc ++ [{ id := id, offsets := offs, fin := fin }])
  else (snd, pend, bufLen, acc)
termination_by (maxBufSize - bufLen, pend.length)
decreasing_by
  all_goals first
    | (apply Prod.Lex.right; simp)
    | (apply Prod.Lex.left
       have hS : 0 < STREAMSIZEBOUND := by decide
       omega)

/-- `Streams::write_stream_frames`; returns the emitted frame metadata, the
new buffer length, and the updated manager. -/
def Streams.writeStreamFrames (s : Streams) (bufLen maxBufSize : Nat) :
    List StreamMeta × Nat × Streams :=
  let r := wsfLoop s.send s.pending bufLen maxBufSize []
  (r.2.2.2, r.2.2.1, { s with send := r.1, pending := r.2.1 })

/-! ## The public operations as a single step machine -/

/-- One public operation on `Streams`, with its arguments. -/
inductive Op where
  | write (id : StreamId) (dataLen : Nat)
  | read (id : StreamId) (bufLen : Nat)
  | readUnordered (id : StreamId)
  | received (f : StreamFrame)
  | receivedReset (f : ResetStreamFrame)
  | receivedStopSending (id : StreamId) (errorCode : Nat)
  | finish (id : StreamId)
  | reset (id : StreamId)
  | resetAcked (id : StreamId)
  | stop (id : StreamId)
  | receivedAckOf (m : StreamMeta)
  | retransmit (m : StreamMeta)
  | retransmitAllFor0rtt
  | receivedMaxStreams (dir : Dir) (count : Nat)
  | receivedMaxData (n : Nat)
  | receivedMaxStreamData (id : StreamId) (offset : Nat)
  | openStream (params : TransportParameters) (dir : Dir)
  | setParams (params : TransportParameters)
  | allocRemoteStream (params : TransportParameters) (dir : Dir)
  | accept (dir : Dir)
  | zeroRttRejected
  | poll
  | writeControlFrames (pend sent : Retransmits) (bufLen maxSize : Nat)
  | writeStreamFrames (bufLen maxBufSize : Nat)

/-- Execute one public operation, keeping only the successor state; `none` is
a panic. -/
def step (s : Streams) : Op → Option Streams
  | .write id dataLen => (s.write id dataLen).map (·.2)
  | .read id bufLen => (s.read id bufLen).map (·.2)
  | .readUnordered id => (s.readUnordered id).map (·.2)
  | .received f => (s.received f).map (·.2)
  | .receivedReset f => (s.receivedReset f).map (·.2)
  | .receivedStopSending id errorCode => some (s.receivedStopSending id errorCode)
  | .finish id => some (s.finish id).2
  | .reset id => (s.reset id).map (·.2)
  | .resetAcked id => s.resetAcked id
  | .stop id => (s.stop id).map (·.2)
  | .receivedAckOf m => s.receivedAckOf m
  | .retransmit m => some (s.retransmit m)
  | .retransmitAllFor0rtt => s.retransmitAllFor0rtt
  | .receivedMaxStreams dir count => some (s.receivedMaxStreams dir count).2
  | .receivedMaxData n => some (s.receivedMaxData n)
  | .receivedMaxStreamData id offset => some (s.receivedMaxStreamData id offset).2
  | .openStream params dir => (s.openStream params dir).map (·.2)
  | .setParams params => s.setParams params
  | .allocRemoteStream params dir => s.allocRemoteStream params dir
  | .accept dir => some (s.accept dir).2
  | .zeroRttRejected => s.zeroRttRejected
  | .poll => (s.poll).map (·.2)
  | .writeControlFrames pend sent bufLen maxSize =>
    (s.writeControlFrames pend sent bufLen maxSize).map (·.1)
  | .writeStreamFrames bufLen maxBufSize => some (s.writeStreamFrames bufLen maxBufSize).2.2

/-- Execute a sequence of public operations; `none` if any call panics. -/
def execOps (s : Streams) : List Op → Option Streams
  | [] => some s
  | op :: ops =>
    match step s op with
    | none => none
    | some s' => execOps s' ops

/-- Invariant 1 of §3: connection-level accounting. -/
def Inv1 (s : Streams) : Prop :=
  s.dataSent ≤ s.maxData ∧ s.unackedData ≤ s.sendWindow

instance (s : Streams) : Decidable (Inv1 s) := by
  unfold Inv1
  infer_instance

/-- The operations that can re-set an `opened` flag for direction `d`, per
the spec: `alloc_remote_stream`, or receipt of a frame on a new remote
stream (one whose index is at or beyond `next_remote`). -/
def OpensDir (s : Streams) (op : Op) (d : Dir) : Prop :=
  match op with
  | .allocRemoteStream _ dir => dir = d
  | .received f => f.id.initiator ≠ s.side ∧ f.id.dir = d ∧ s.nextRemote d ≤ f.id.index
  | .receivedReset f => f.id.initiator ≠ s.side ∧ f.id.dir = d ∧ s.nextRemote d ≤ f.id.index
  | .receivedStopSending id _ => id.initiator ≠ s.side ∧ id.dir = d ∧ s.nextRemote d ≤ id.index
  | .receivedMaxStreamData id _ => id.initiator ≠ s.side ∧ id.dir = d ∧ s.nextRemote d ≤ id.index
  | _ => False

/-- Along an operation sequence, no operation re-sets `opened[d]` (in the
sense of `OpensDir`, evaluated at the state where it executes). -/
def NoReopen (d : Dir) : Streams → List Op → Prop
  | _, [] => True
  | s, op :: ops =>
    ¬ OpensDir s op d ∧ ∀ s', step s op = some s' → NoReopen d s' ops

/-- A small concrete client-side state used to instantiate theorems with
hypotheses: no streams, 64-byte windows. -/
def wBase : Streams :=
  { side := Side.client
    send := fun _ => none
    recv := fun _ => none
    next := fun _ => 0
    max := fun _ => 0
    maxRemote := fun d => match d with | Dir.uni => 1 | Dir.bi => 0
    nextRemote := fun _ => 0
    opened := fun _ => false
    nextReportedRemote := fun _ => 0
    sendStreams := 0
    pending := []
    events := []
    connectionBlocked := []
    maxData := 0
    receiveWindow := 64
    localMaxData := 64
    sentMaxData := 64
    dataSent := 0
    dataRecvd := 0
    unackedData := 0
    sendWindow := 64
    streamReceiveWindow := 64 }

/-- The peer-initiated unidirectional stream 0, as seen by a client. -/
def wsid : StreamId := StreamId.mk Side.server Dir.uni 0

/-- `wBase` with the recv half of `wsid` installed (as `Streams::new` would
have pre-created it). -/
def wRecv : Streams := { wBase with recv := upd wBase.recv wsid (some Recv.new) }

/-- A state with the `opened` flag set for `Uni`. -/
def c6s : Streams := { wBase with opened := upd wBase.opened Dir.uni true }

/-- `c6s` after `poll` consumed the `Opened` event. -/
def c6s1 : Streams := { c6s with opened := upd c6s.opened Dir.uni false }

/-- The locally-initiated unidirectional stream 0, as seen by a server. -/
def svid : StreamId := StreamId.mk Side.server Dir.uni 0

/-- A server-side state whose send stream `svid` is `Ready` but has
`stop_reason` set (the peer sent STOP_SENDING). -/
def c7state : Streams :=
  { wBase with
    side := Side.server
    send := upd wBase.send svid (some { Send.new 42 with stopReason := some 0 })
    next := fun d => match d with | Dir.uni => 1 | Dir.bi => 0 }

/-- A server-side state whose send stream `svid` is `Ready`, not pending,
and not stopped. -/
def c8state : Streams :=
  { wBase with
    side := Side.server
    send := upd wBase.send svid (some (Send.new 42))
    next := fun d => match d with | Dir.uni => 1 | Dir.bi => 0 }

/-- A server-side state where the connection-level budget is zero
(`max_data = data_sent = 5`) and the send stream `svid` exists. -/
def c9state : Streams :=
  { wBase with
    side := Side.server
    send := upd wBase.send svid (some (Send.new 42))
    next := fun d => match d with | Dir.uni => 1 | Dir.bi => 0
    maxData := 5
    dataSent := 5
    sendWindow := 64 }

/-- A server-side state whose send stream `svid` is in `ResetSent`. -/
def c10state : Streams :=
  { wBase with
    side := Side.server
    send := upd wBase.send svid (some { Send.new 42 with state := SendState.resetSent })
    next := fun d => match d with | Dir.uni => 1 | Dir.bi => 0 }

/-- A state whose `local_max_data` has saturated past `VarInt::MAX`. -/
def c4big : Streams := { wBase with localMaxData := VARINTMAX + 1 }

/-- A server-side state with positive connection budget whose send stream
`svid` has `stop_reason` set. -/
def c9stop : Streams :=
  { wBase with
    side := Side.server
    send := upd wBase.send svid (some { Send.new 42 with stopReason := some 7 })
    next := fun d => match d with | Dir.uni => 1 | Dir.bi => 0
    maxData := 10
    dataSent := 0
    sendWindow := 64 }

/-- What every public operation guarantees about the connection-level flow
counters: it preserves invariant 1, and `local_max_data` is monotone
non-decreasing (within the `u64` range). -/
def StepOk (s s' : Streams) : Prop :=
  (Inv1 s → Inv1 s') ∧
  (s.localMaxData ≤ U64MAX → s.localMaxData ≤ s'.localMaxData ∧ s'.localMaxData ≤ U64MAX)

/-- What a successful public operation guarantees toward claim C6, for a
fixed direction `d`: it cannot set a cleared `opened[d]` flag (under the
`¬ OpensDir` side condition threaded by its caller), and it never enqueues an
`Opened` event into the `events` queue. -/
def C6Step (d : Dir) (s s' : Streams) : Prop :=
  (s.opened d = false → s'.opened d = false) ∧
  (StreamEvent.opened d ∉ s.events → StreamEvent.opened d ∉ s'.events)

/-- A state with `opened[Uni]` set and one queued `Finished` event. -/
def c6ev : Streams :=
  { wBase with opened := upd wBase.opened Dir.uni true, events := [StreamEvent.finished wsid] }

/-- `c6ev` after the first `poll` consumed `Opened{Uni}`. -/
def c6ev1 : Streams := { c6ev with opened := upd c6ev.opened Dir.uni false }

/-- `c6ev1` after the second `poll` delivered the queued `Finished` event. -/
def c6ev2 : Streams := { c6ev1 with events := [] }

/-! ## Helper lemmas -/

theorem subU_eq_some {a b c : Nat} (h : subU a b = some c) : b ≤ a ∧ c = a - b := by
  unfold subU at h
  split at h
  · exact ⟨by assumption, by injection h; omega⟩
  · exact absurd h (by simp)

theorem subU_isSome {a b : Nat} (h : b ≤ a) : subU a b = some (a - b) := by
  unfold subU
  simp [h]

theorem addU_eq_some {a b c : Nat} (h : addU a b = some c) : c = a + b := by
  unfold addU at h
  split at h
  · injection h; omega
  · exact absurd h (by simp)

theorem satAdd_le_max (a b : Nat) : satAdd a b ≤ U64MAX := by
  unfold satAdd
  omega

theorem le_satAdd {a : Nat} (b : Nat) (h : a ≤ U64MAX) : a ≤ satAdd a b := by
  unfold satAdd
  omega

theorem upd_self {κ α : Type} [DecidableEq κ] (m : κ → α) (k : κ) (v : α) :
    upd m k v k = v := by
  simp [upd]

theorem upd_other {κ α : Type} [DecidableEq κ] (m : κ → α) (k x : κ) (v : α) (h : x ≠ k) :
    upd m k v x = m x := by
  simp [upd, h]

/-- Extraction lemma for monadic `Option` binds. -/
theorem optBind_eq_some {α β : Type} {x : Option α} {f : α → Option β} {b : β} :
    (x >>= f) = some b ↔ ∃ a, x = some a ∧ f a = some b := by
  cases x <;> simp

/-- `add_read_credits` only rewrites `local_max_data`, by saturating
addition. -/
theorem addReadCredits_state {s : Streams} {c : Nat} {t : Bool} {s' : Streams}
    (h : s.addReadCredits c = some (t, s')) :
    s' = { s with localMaxData := satAdd s.localMaxData c } := by
  simp only [Streams.addReadCredits] at h
  split at h
  · simp only [Option.some.injEq, Prod.mk.injEq] at h
    first
    | exact h.2
    | exact h.2.symm
  · cases hd : subU (satAdd s.localMaxData c) s.sentMaxData with
    | none => rw [hd] at h; simp at h
    | some diff =>
      rw [hd] at h
      simp only [Option.some.injEq, Prod.mk.injEq] at h
      first
      | exact h.2
      | exact h.2.symm

theorem stepOk_of_fields {s s' : Streams}
    (h1 : s'.dataSent = s.dataSent) (h2 : s'.maxData = s.maxData)
    (h3 : s'.unackedData = s.unackedData) (h4 : s'.sendWindow = s.sendWindow)
    (h5 : s'.localMaxData = s.localMaxData) : StepOk s s' := by
  constructor
  · intro hi
    exact ⟨h1 ▸ h2 ▸ hi.1, h3 ▸ h4 ▸ hi.2⟩
  · intro hr
    exact ⟨h5 ▸ le_refl _, h5 ▸ hr⟩

theorem stepOk_rfl (s : Streams) : StepOk s s :=
  stepOk_of_fields rfl rfl rfl rfl rfl

/-- `StepOk` for a state that only saturating-added credits to
`local_max_data`. -/
theorem stepOk_credits {s s' : Streams}
    (h1 : s'.dataSent = s.dataSent) (h2 : s'.maxData = s.maxData)
    (h3 : s'.unackedData = s.unackedData) (h4 : s'.sendWindow = s.sendWindow)
    {c : Nat} (h5 : s'.localMaxData = satAdd s.localMaxData c) : StepOk s s' := by
  constructor
  · intro hi
    exact ⟨h1 ▸ h2 ▸ hi.1, h3 ▸ h4 ▸ hi.2⟩
  · intro hr
    exact ⟨h5 ▸ le_satAdd c hr, h5 ▸ satAdd_le_max _ _⟩

theorem writeLimit_eq_some {s : Streams} {l : Nat} (h : s.writeLimit = some l) :
    s.dataSent ≤ s.maxData ∧ s.unackedData ≤ s.sendWindow ∧
    l = Nat.min (s.maxData - s.dataSent) (s.sendWindow - s.unackedData) := by
  unfold Streams.writeLimit at h
  split at h
  · simp at h
  next a ha =>
    split at h
    · simp at h
    next b hb =>
      obtain ⟨ha1, ha2⟩ := subU_eq_some ha
      obtain ⟨hb1, hb2⟩ := subU_eq_some hb
      subst ha2
      subst hb2
      injection h with h
      exact ⟨ha1, hb1, h.symm⟩

theorem writeLimit_isSome_of_inv {s : Streams} (h : Inv1 s) : (s.writeLimit).isSome = true := by
  unfold Streams.writeLimit
  rw [subU_isSome h.1, subU_isSome h.2]
  rfl

theorem Send.write_len_le {st : Send} {k len : Nat} {st' : Send}
    (h : st.write k = some (.ok (len, st'))) : len ≤ k := by
  unfold Send.write at h
  split at h
  · simp at h
  · split at h
    · simp at h
    · split at h
      · simp at h
      next budget hb =>
        split at h
        · simp at h
        · simp only [Option.some.injEq, Except.ok.injEq, Prod.mk.injEq] at h
          obtain ⟨h1, h2⟩ := h
          exact h1 ▸ Nat.min_le_left k budget

theorem stepOk_trans {s t u : Streams} (a : StepOk s t) (b : StepOk t u) : StepOk s u := by
  constructor
  · exact fun hi => b.1 (a.1 hi)
  · intro hr
    obtain ⟨a1, a2⟩ := a.2 hr
    obtain ⟨b1, b2⟩ := b.2 a2
    exact ⟨le_trans a1 b1, b2⟩

theorem stepOk_of_le {s s' : Streams}
    (hds : s'.dataSent ≤ s.dataSent) (hmd : s.maxData ≤ s'.maxData)
    (hua : s'.unackedData ≤ s.unackedData) (hsw : s'.sendWindow = s.sendWindow)
    (hl : s'.localMaxData = s.localMaxData) : StepOk s s' := by
  constructor
  · intro hi
    exact ⟨le_trans hds (le_trans hi.1 hmd), hsw ▸ le_trans hua hi.2⟩
  · intro hr
    exact ⟨hl ▸ le_refl _, hl ▸ hr⟩

theorem stepOk_onStreamFrame (s : Streams) (b : Bool) (id : StreamId) :
    StepOk s (s.onStreamFrame b id) := by
  unfold Streams.onStreamFrame
  split
  · split
    · exact stepOk_of_fields rfl rfl rfl rfl rfl
    · exact stepOk_rfl s
  · split
    · exact stepOk_of_fields rfl rfl rfl rfl rfl
    · split
      · exact stepOk_of_fields rfl rfl rfl rfl rfl
      · exact stepOk_rfl s

theorem addReadCredits_stepOk {s : Streams} {c : Nat} {t : Bool} {s' : Streams}
    (h : s.addReadCredits c = some (t, s')) : StepOk s s' := by
  rw [addReadCredits_state h]
  exact stepOk_credits rfl rfl rfl rfl rfl

theorem write_stepOk {s : Streams} {id : StreamId} {n : Nat} {r : Except WriteError Nat}
    {s' : Streams} (h : s.write id n = some (r, s')) : StepOk s s' := by
  unfold Streams.write at h
  split at h
  · simp at h
  case _ limit hlim =>
    split at h
    · simp only [Option.some.injEq, Prod.mk.injEq] at h
      obtain ⟨-, h2⟩ := h
      subst h2
      exact stepOk_rfl s
    case _ st hst =>
      split at h
      · split at h <;>
          (simp only [Option.some.injEq, Prod.mk.injEq] at h
           obtain ⟨-, h2⟩ := h
           subst h2
           first
             | exact stepOk_of_fields rfl rfl rfl rfl rfl
             | exact stepOk_rfl s)
      · split at h
        · simp at h
        · simp only [Option.some.injEq, Prod.mk.injEq] at h
          obtain ⟨-, h2⟩ := h
          subst h2
          exact stepOk_rfl s
        · simp only [] at h
          split at h
          · simp at h
          · simp at h
          · rename_i len st' hw xa xb ds ua hds hua
            simp only [Option.some.injEq, Prod.mk.injEq] at h
            obtain ⟨-, h2⟩ := h
            subst h2
            obtain ⟨hle1, hle2, hl3⟩ := writeLimit_eq_some hlim
            have hlen : len ≤ limit :=
              le_trans (Send.write_len_le hw) (Nat.min_le_right _ _)
            have hlimA : limit ≤ s.maxData - s.dataSent := hl3 ▸ Nat.min_le_left _ _
            have hlimB : limit ≤ s.sendWindow - s.unackedData := hl3 ▸ Nat.min_le_right _ _
            have hds2 := addU_eq_some hds
            have hua2 := addU_eq_some hua
            constructor
            · intro hi
              refine ⟨?_, ?_⟩ <;> (simp only; omega)
            · intro hr
              exact ⟨le_refl _, hr⟩

theorem stepOk_ite {P : Prop} [Decidable P] {s X Y : Streams} (hx : StepOk s X)
    (hy : StepOk s Y) : StepOk s (if P then X else Y) := by
  split
  · exact hx
  · exact hy

theorem stepOk_trans2 (t : Streams) {s u : Streams} (h1 : StepOk s t) (h2 : StepOk t u) :
    StepOk s u :=
  stepOk_trans h1 h2

theorem stepOk_into_onStreamFrame {s t : Streams} (b : Bool) (id : StreamId)
    (h0 : StepOk s t) : StepOk s (t.onStreamFrame b id) :=
  stepOk_trans h0 (stepOk_onStreamFrame t b id)

theorem addReadCredits_stepOk_of (sMid : Streams) {s : Streams} {c : Nat} {t : Bool}
    {s1 : Streams} (h : sMid.addReadCredits c = some (t, s1)) (h0 : StepOk s sMid) :
    StepOk s s1 :=
  stepOk_trans h0 (addReadCredits_stepOk h)

theorem read_stepOk {s : Streams} {id : StreamId} {n : Nat} {r : Except ReadError (Option ReadResult)}
    {s' : Streams} (h : s.read id n = some (r, s')) : StepOk s s' := by
  unfold Streams.read at h
  split at h
  · simp only [Option.some.injEq, Prod.mk.injEq] at h
    obtain ⟨-, h2⟩ := h
    subst h2
    exact stepOk_rfl s
  · split at h
    · split at h
      · simp at h
      · split at h
        · simp at h
        · rename_i rs' heq2 x1 fst tms heq1 x2 tmd s1 heq
          simp only [Option.some.injEq, Prod.mk.injEq] at h
          obtain ⟨-, h2⟩ := h
          subst h2
          exact addReadCredits_stepOk_of { s with recv := upd s.recv id (some rs') } heq
            (stepOk_of_fields rfl rfl rfl rfl rfl)
    · simp only [Option.some.injEq, Prod.mk.injEq] at h
      obtain ⟨-, h2⟩ := h
      subst h2
      exact stepOk_of_fields rfl rfl rfl rfl rfl
    · simp only [Option.some.injEq, Prod.mk.injEq] at h
      obtain ⟨-, h2⟩ := h
      subst h2
      exact stepOk_of_fields rfl rfl rfl rfl rfl
    · simp only [Option.some.injEq, Prod.mk.injEq] at h
      obtain ⟨-, h2⟩ := h
      subst h2
      exact stepOk_of_fields rfl rfl rfl rfl rfl

theorem readUnordered_stepOk {s : Streams} {id : StreamId}
    {r : Except ReadError (Option ReadUnorderedResult)} {s' : Streams}
    (h : s.readUnordered id = some (r, s')) : StepOk s s' := by
  unfold Streams.readUnordered at h
  split at h
  · simp only [Option.some.injEq, Prod.mk.injEq] at h
    obtain ⟨-, h2⟩ := h
    subst h2
    exact stepOk_rfl s
  · split at h
    · split at h
      · simp at h
      · split at h
        · simp at h
        · rename_i off rs' heq2 x1 fst tms heq1 x2 tmd s1 heq
          simp only [Option.some.injEq, Prod.mk.injEq] at h
          obtain ⟨-, h2⟩ := h
          subst h2
          exact addReadCredits_stepOk_of { s with recv := upd s.recv id (some rs') } heq
            (stepOk_of_fields rfl rfl rfl rfl rfl)
    · simp only [Option.some.injEq, Prod.mk.injEq] at h
      obtain ⟨-, h2⟩ := h
      subst h2
      exact stepOk_of_fields rfl rfl rfl rfl rfl
    · simp only [Option.some.injEq, Prod.mk.injEq] at h
      obtain ⟨-, h2⟩ := h
      subst h2
      exact stepOk_of_fields rfl rfl rfl rfl rfl
    · simp only [Option.some.injEq, Prod.mk.injEq] at h
      obtain ⟨-, h2⟩ := h
      subst h2
      exact stepOk_of_fields rfl rfl rfl rfl rfl

theorem received_stepOk {s : Streams} {f : StreamFrame} {r : Except TransportError Bool}
    {s' : Streams} (h : s.received f = some (r, s')) : StepOk s s' := by
  unfold Streams.received at h
  split at h
  · simp only [Option.some.injEq, Prod.mk.injEq] at h
    obtain ⟨-, h2⟩ := h
    subst h2
    exact stepOk_rfl s
  · split at h
    · simp only [Option.some.injEq, Prod.mk.injEq] at h
      obtain ⟨-, h2⟩ := h
      subst h2
      exact stepOk_rfl s
    · split at h
      · simp only [Option.some.injEq, Prod.mk.injEq] at h
        obtain ⟨-, h2⟩ := h
        subst h2
        exact stepOk_rfl s
      · split at h
        · simp at h
        · simp only [Option.some.injEq, Prod.mk.injEq] at h
          obtain ⟨-, h2⟩ := h
          subst h2
          exact stepOk_rfl s
        · split at h
          · simp at h
          · simp only [] at h
            split at h
            · simp only [Option.some.injEq, Prod.mk.injEq] at h
              obtain ⟨-, h2⟩ := h
              subst h2
              exact stepOk_into_onStreamFrame _ _ (stepOk_of_fields rfl rfl rfl rfl rfl)
            · split at h
              · simp at h
              · rename_i newBytes rs' hing x1 dr hdr hstop x2 tmd s1 heq
                simp only [Option.some.injEq, Prod.mk.injEq] at h
                obtain ⟨-, h2⟩ := h
                subst h2
                exact addReadCredits_stepOk_of
                  (if rs'.isClosed = true then
                    { s with recv := upd (upd s.recv f.id (some rs')) f.id none,
                             dataRecvd := dr }
                  else
                    { s with recv := upd s.recv f.id (some rs'), dataRecvd := dr }) heq
                  (stepOk_ite (stepOk_of_fields rfl rfl rfl rfl rfl)
                    (stepOk_of_fields rfl rfl rfl rfl rfl))

theorem receivedReset_stepOk {s : Streams} {f : ResetStreamFrame} {r : Except TransportError Bool}
    {s' : Streams} (h : s.receivedReset f = some (r, s')) : StepOk s s' := by
  unfold Streams.receivedReset at h
  split at h
  · simp only [Option.some.injEq, Prod.mk.injEq] at h
    obtain ⟨-, h2⟩ := h
    subst h2
    exact stepOk_rfl s
  · split at h
    · simp only [Option.some.injEq, Prod.mk.injEq] at h
      obtain ⟨-, h2⟩ := h
      subst h2
      exact stepOk_rfl s
    · try simp only [] at h
      split at h
      · simp only [Option.some.injEq, Prod.mk.injEq] at h
        obtain ⟨-, h2⟩ := h
        subst h2
        exact stepOk_rfl s
      · split at h
        · simp only [Option.some.injEq, Prod.mk.injEq] at h
          obtain ⟨-, h2⟩ := h
          subst h2
          exact stepOk_rfl s
        · split at h
          · split at h
            · simp at h
            · simp at h
            · split at h
              · simp at h
              · split at h
                · simp at h
                · rename_i rs' hres q1 q2 q3 q4 q5 q6 q7 q8 q9 q10 q11 q12 q13 q14
                  simp only [Option.some.injEq, Prod.mk.injEq] at h
                  obtain ⟨-, h2⟩ := h
                  subst h2
                  refine addReadCredits_stepOk_of _ q14 ?_
                  refine stepOk_trans2
                    ((if rs'.assembler.stopped = true then
                        { s with recv := upd s.recv f.id none }
                      else
                        { s with recv := upd s.recv f.id (some rs') }).onStreamFrame
                        (!rs'.assembler.stopped) f.id)
                    ?_ (stepOk_of_fields rfl rfl rfl rfl rfl)
                  refine stepOk_into_onStreamFrame _ _ ?_
                  exact stepOk_ite (stepOk_of_fields rfl rfl rfl rfl rfl)
                    (stepOk_of_fields rfl rfl rfl rfl rfl)
          · simp only [Option.some.injEq, Prod.mk.injEq] at h
            obtain ⟨-, h2⟩ := h
            subst h2
            exact stepOk_into_onStreamFrame _ _
              (stepOk_ite (stepOk_of_fields rfl rfl rfl rfl rfl)
                (stepOk_of_fields rfl rfl rfl rfl rfl))

theorem receivedStopSending_stepOk (s : Streams) (id : StreamId) (errorCode : Nat) :
    StepOk s (s.receivedStopSending id errorCode) := by
  unfold Streams.receivedStopSending
  split
  · exact stepOk_rfl s
  · exact stepOk_into_onStreamFrame _ _ (stepOk_of_fields rfl rfl rfl rfl rfl)

theorem finish_stepOk (s : Streams) (id : StreamId) : StepOk s (s.finish id).2 := by
  unfold Streams.finish
  split
  · exact stepOk_rfl s
  · split
    · exact stepOk_rfl s
    · exact stepOk_of_fields rfl rfl rfl rfl rfl

theorem reset_stepOk {s : Streams} {id : StreamId} {r : Except Unit Unit} {s' : Streams}
    (h : s.reset id = some (r, s')) : StepOk s s' := by
  unfold Streams.reset at h
  split at h
  · simp only [Option.some.injEq, Prod.mk.injEq] at h
    obtain ⟨-, h2⟩ := h
    subst h2
    exact stepOk_rfl s
  · split at h
    · simp only [Option.some.injEq, Prod.mk.injEq] at h
      obtain ⟨-, h2⟩ := h
      subst h2
      exact stepOk_rfl s
    · split at h
      · simp at h
      · rename_i st hst hnr ua hua
        simp only [Option.some.injEq, Prod.mk.injEq] at h
        obtain ⟨-, h2⟩ := h
        subst h2
        obtain ⟨hle, hv⟩ := subU_eq_some hua
        exact stepOk_of_le (le_refl _) (le_refl _)
          (le_of_eq_of_le hv (Nat.sub_le _ _)) rfl rfl

theorem resetAcked_stepOk {s : Streams} {id : StreamId} {s' : Streams}
    (h : s.resetAcked id = some s') : StepOk s s' := by
  unfold Streams.resetAcked at h
  split at h
  · injection h with h2
    subst h2
    exact stepOk_rfl s
  · split at h
    · split at h
      · simp at h
      · injection h with h2
        subst h2
        exact stepOk_of_fields rfl rfl rfl rfl rfl
    · injection h with h2
      subst h2
      exact stepOk_rfl s

theorem stop_stepOk {s : Streams} {id : StreamId} {r : Except Unit StopResult} {s' : Streams}
    (h : s.stop id = some (r, s')) : StepOk s s' := by
  unfold Streams.stop at h
  split at h
  · simp only [Option.some.injEq, Prod.mk.injEq] at h
    obtain ⟨-, h2⟩ := h
    subst h2
    exact stepOk_rfl s
  · split at h
    · simp only [Option.some.injEq, Prod.mk.injEq] at h
      obtain ⟨-, h2⟩ := h
      subst h2
      exact stepOk_rfl s
    · try simp only [] at h
      split at h
      · simp at h
      · split at h
        · simp at h
        · simp only [Option.some.injEq, Prod.mk.injEq] at h
          obtain ⟨-, h2⟩ := h
          subst h2
          refine @addReadCredits_stepOk_of ?sMid s ?c ?t _ ?heqq ?h0
          case heqq => assumption
          case h0 => exact stepOk_of_fields rfl rfl rfl rfl rfl

theorem receivedAckOf_stepOk {s : Streams} {m : StreamMeta} {s' : Streams}
    (h : s.receivedAckOf m = some s') : StepOk s s' := by
  unfold Streams.receivedAckOf at h
  split at h
  · injection h with h2
    subst h2
    exact stepOk_rfl s
  · split at h
    · injection h with h2
      subst h2
      exact stepOk_rfl s
    · split at h
      · simp at h
      · split at h
        · simp at h
        · rename_i len hlen ua hua
          try simp only [] at h
          split at h
          · split at h
            · simp at h
            · injection h with h2
              subst h2
              obtain ⟨hle, hv⟩ := subU_eq_some hua
              exact stepOk_of_le (le_refl _) (le_refl _)
                (le_of_eq_of_le hv (Nat.sub_le _ _)) rfl rfl
          · injection h with h2
            subst h2
            obtain ⟨hle, hv⟩ := subU_eq_some hua
            exact stepOk_of_le (le_refl _) (le_refl _)
              (le_of_eq_of_le hv (Nat.sub_le _ _)) rfl rfl

theorem retransmit_stepOk (s : Streams) (m : StreamMeta) : StepOk s (s.retransmit m) := by
  unfold Streams.retransmit
  split
  · exact stepOk_rfl s
  · exact stepOk_of_fields rfl rfl rfl rfl rfl

theorem retransmitAllFor0rtt_stepOk {s : Streams} {s' : Streams}
    (h : s.retransmitAllFor0rtt = some s') : StepOk s s' := by
  unfold Streams.retransmitAllFor0rtt at h
  split at h
  · simp at h
  · split at h
    · simp at h
    · injection h with h2
      subst h2
      exact stepOk_of_fields rfl rfl rfl rfl rfl

theorem receivedMaxStreams_stepOk (s : Streams) (dir : Dir) (count : Nat) :
    StepOk s (s.receivedMaxStreams dir count).2 := by
  unfold Streams.receivedMaxStreams
  split
  · exact stepOk_rfl s
  · split
    · exact stepOk_of_fields rfl rfl rfl rfl rfl
    · exact stepOk_rfl s

theorem receivedMaxData_stepOk (s : Streams) (n : Nat) : StepOk s (s.receivedMaxData n) := by
  unfold Streams.receivedMaxData
  exact stepOk_of_le (le_refl _) (Nat.le_max_left _ _) (le_refl _) rfl rfl

theorem receivedMaxStreamData_stepOk (s : Streams) (id : StreamId) (offset : Nat) :
    StepOk s (s.receivedMaxStreamData id offset).2 := by
  unfold Streams.receivedMaxStreamData
  split
  · exact stepOk_rfl s
  · split
    · refine stepOk_into_onStreamFrame _ _ ?_
      exact stepOk_ite (stepOk_of_fields rfl rfl rfl rfl rfl)
        (stepOk_of_fields rfl rfl rfl rfl rfl)
    · split
      · exact stepOk_rfl s
      · exact stepOk_into_onStreamFrame _ _ (stepOk_rfl s)

theorem openStream_stepOk {s : Streams} {params : TransportParameters} {dir : Dir}
    {r : Option StreamId} {s' : Streams} (h : s.openStream params dir = some (r, s')) :
    StepOk s s' := by
  unfold Streams.openStream at h
  split at h
  · simp only [Option.some.injEq, Prod.mk.injEq] at h
    obtain ⟨-, h2⟩ := h
    subst h2
    exact stepOk_rfl s
  · try simp only [] at h
    split at h
    · simp at h
    · simp only [Option.some.injEq, Prod.mk.injEq] at h
      obtain ⟨-, h2⟩ := h
      subst h2
      exact stepOk_of_fields rfl rfl rfl rfl rfl

theorem setParams_stepOk {s : Streams} {params : TransportParameters} {s' : Streams}
    (h : s.setParams params = some s') : StepOk s s' := by
  unfold Streams.setParams at h
  try simp only [] at h
  split at h
  · simp at h
  · injection h with h2
    subst h2
    unfold Streams.receivedMaxData
    exact stepOk_of_le (le_refl _) (Nat.le_max_left _ _) (le_refl _) rfl rfl

theorem allocRemoteStream_stepOk {s : Streams} {params : TransportParameters} {dir : Dir}
    {s' : Streams} (h : s.allocRemoteStream params dir = some s') : StepOk s s' := by
  unfold Streams.allocRemoteStream at h
  try simp only [] at h
  split at h
  · simp at h
  · injection h with h2
    subst h2
    exact stepOk_of_fields rfl rfl rfl rfl rfl

theorem accept_stepOk (s : Streams) (dir : Dir) : StepOk s (s.accept dir).2 := by
  unfold Streams.accept
  split
  · exact stepOk_rfl s
  · exact stepOk_ite (stepOk_of_fields rfl rfl rfl rfl rfl)
      (stepOk_of_fields rfl rfl rfl rfl rfl)

theorem zeroRttRejected_stepOk {s : Streams} {s' : Streams}
    (h : s.zeroRttRejected = some s') : StepOk s s' := by
  unfold Streams.zeroRttRejected at h
  split at h
  · simp at h
  · split at h
    · simp at h
    · injection h with h2
      subst h2
      exact stepOk_of_le (Nat.zero_le _) (le_refl _) (le_refl _) rfl rfl

theorem pollUnblocked_stepOk {s : Streams} {r : Option StreamId} {s1 : Streams}
    (h : s.pollUnblocked = some (r, s1)) : StepOk s s1 := by
  unfold Streams.pollUnblocked at h
  split at h
  · simp only [Option.some.injEq, Prod.mk.injEq] at h
    obtain ⟨-, h2⟩ := h
    subst h2
    exact stepOk_rfl s
  · split at h
    · simp at h
    · simp only [Option.some.injEq, Prod.mk.injEq] at h
      obtain ⟨-, h2⟩ := h
      subst h2
      exact stepOk_of_fields rfl rfl rfl rfl rfl

theorem poll_stepOk {s : Streams} {r : Option StreamEvent} {s' : Streams}
    (h : s.poll = some (r, s')) : StepOk s s' := by
  unfold Streams.poll at h
  split at h
  · simp only [Option.some.injEq, Prod.mk.injEq] at h
    obtain ⟨-, h2⟩ := h
    subst h2
    exact stepOk_of_fields rfl rfl rfl rfl rfl
  · split at h
    · simp only [Option.some.injEq, Prod.mk.injEq] at h
      obtain ⟨-, h2⟩ := h
      subst h2
      exact stepOk_of_fields rfl rfl rfl rfl rfl
    · split at h
      · simp at h
      · rename_i x1 r1 s1 hpu
        split at h
        · simp only [Option.some.injEq, Prod.mk.injEq] at h
          obtain ⟨-, h2⟩ := h
          subst h2
          exact pollUnblocked_stepOk hpu
        · split at h
          · simp only [Option.some.injEq, Prod.mk.injEq] at h
            obtain ⟨-, h2⟩ := h
            subst h2
            exact pollUnblocked_stepOk hpu
          · simp only [Option.some.injEq, Prod.mk.injEq] at h
            obtain ⟨-, h2⟩ := h
            subst h2
            exact stepOk_trans2 s1 (pollUnblocked_stepOk hpu)
              (stepOk_of_fields rfl rfl rfl rfl rfl)

theorem stepOk_recordSentMaxData (s : Streams) (v : Nat) :
    StepOk s (s.recordSentMaxData v) := by
  unfold Streams.recordSentMaxData
  split
  · exact stepOk_of_fields rfl rfl rfl rfl rfl
  · exact stepOk_rfl s

theorem writeControlFrames_stepOk {s : Streams} {pend sent : Retransmits} {bufLen maxSize : Nat}
    {out : Streams × Retransmits × Retransmits × Nat}
    (h : s.writeControlFrames pend sent bufLen maxSize = some out) : StepOk s out.1 := by
  unfold Streams.writeControlFrames at h
  try simp only [] at h
  split at h
  · simp at h
  · injection h with h2
    subst h2
    refine stepOk_trans2
      (if (pend.maxData && decide ((wcfStopLoop s.recv maxSize pend.stopSending
            sent.stopSending (wcfResetLoop s.send maxSize pend.resetStream
              sent.resetStream bufLen).2.2).2.2 + 9 < maxSize)) = true then
        s.recordSentMaxData (Nat.min s.localMaxData VARINTMAX)
      else s) ?_ (stepOk_of_fields rfl rfl rfl rfl rfl)
    exact stepOk_ite (stepOk_recordSentMaxData s _) (stepOk_rfl s)

theorem writeStreamFrames_stepOk (s : Streams) (bufLen maxBufSize : Nat) :
    StepOk s (s.writeStreamFrames bufLen maxBufSize).2.2 := by
  unfold Streams.writeStreamFrames
  exact stepOk_of_fields rfl rfl rfl rfl rfl

/-- Every successful public operation preserves invariant 1 and never
decreases `local_max_data`. -/
theorem step_stepOk {s : Streams} {op : Op} {s' : Streams} (h : step s op = some s') :
    StepOk s s' := by
  cases op with
  | write id n =>
    simp only [step, Option.map_eq_some'] at h
    obtain ⟨p, hp, h2⟩ := h
    subst h2
    exact write_stepOk hp
  | read id n =>
    simp only [step, Option.map_eq_some'] at h
    obtain ⟨p, hp, h2⟩ := h
    subst h2
    exact read_stepOk hp
  | readUnordered id =>
    simp only [step, Option.map_eq_some'] at h
    obtain ⟨p, hp, h2⟩ := h
    subst h2
    exact readUnordered_stepOk hp
  | received f =>
    simp only [step, Option.map_eq_some'] at h
    obtain ⟨p, hp, h2⟩ := h
    subst h2
    exact received_stepOk hp
  | receivedReset f =>
    simp only [step, Option.map_eq_some'] at h
    obtain ⟨p, hp, h2⟩ := h
    subst h2
    exact receivedReset_stepOk hp
  | receivedStopSending id c =>
    simp only [step] at h
    injection h with h2
    subst h2
    exact receivedStopSending_stepOk s id c
  | finish id =>
    simp only [step] at h
    injection h with h2
    subst h2
    exact finish_stepOk s id
  | reset id =>
    simp only [step, Option.map_eq_some'] at h
    obtain ⟨p, hp, h2⟩ := h
    subst h2
    exact reset_stepOk hp
  | resetAcked id =>
    simp only [step] at h
    exact resetAcked_stepOk h
  | stop id =>
    simp only [step, Option.map_eq_some'] at h
    obtain ⟨p, hp, h2⟩ := h
    subst h2
    exact stop_stepOk hp
  | receivedAckOf m =>
    simp only [step] at h
    exact receivedAckOf_stepOk h
  | retransmit m =>
    simp only [step] at h
    injection h with h2
    subst h2
    exact retransmit_stepOk s m
  | retransmitAllFor0rtt =>
    simp only [step] at h
    exact retransmitAllFor0rtt_stepOk h
  | receivedMaxStreams dir count =>
    simp only [step] at h
    injection h with h2
    subst h2
    exact receivedMaxStreams_stepOk s dir count
  | receivedMaxData n =>
    simp only [step] at h
    injection h with h2
    subst h2
    exact receivedMaxData_stepOk s n
  | receivedMaxStreamData id off =>
    simp only [step] at h
    injection h with h2
    subst h2
    exact receivedMaxStreamData_stepOk s id off
  | openStream p dir =>
    simp only [step, Option.map_eq_some'] at h
    obtain ⟨q, hq, h2⟩ := h
    subst h2
    exact openStream_stepOk hq
  | setParams p =>
    simp only [step] at h
    exact setParams_stepOk h
  | allocRemoteStream p dir =>
    simp only [step] at h
    exact allocRemoteStream_stepOk h
  | accept dir =>
    simp only [step] at h
    injection h with h2
    subst h2
    exact accept_stepOk s dir
  | zeroRttRejected =>
    simp only [step] at h
    exact zeroRttRejected_stepOk h
  | poll =>
    simp only [step, Option.map_eq_some'] at h
    obtain ⟨p, hp, h2⟩ := h
    subst h2
    exact poll_stepOk hp
  | writeControlFrames pend sent bufLen maxSize =>
    simp only [step, Option.map_eq_some'] at h
    obtain ⟨out, hout, h2⟩ := h
    subst h2
    exact writeControlFrames_stepOk hout
  | writeStreamFrames bufLen maxBufSize =>
    simp only [step] at h
    injection h with h2
    subst h2
    exact writeStreamFrames_stepOk s bufLen maxBufSize

/-- `Streams::new` starts with zeroed counters. -/
theorem new_counters {side : Side} {a b sw rw srw : Nat} {s0 : Streams}
    (h : Streams.new side a b sw rw srw = some s0) :
    s0.dataSent = 0 ∧ s0.maxData = 0 ∧ s0.unackedData = 0 ∧ s0.localMaxData = rw := by
  unfold Streams.new at h
  try simp only [] at h
  split at h
  · simp at h
  · split at h
    · simp at h
    · injection h with h2
      subst h2
      exact ⟨rfl, rfl, rfl, rfl⟩

/-- Invariant 1 is preserved along every non-panicking trace. -/
theorem execOps_inv : ∀ (ops : List Op) (s s' : Streams),
    Inv1 s → execOps s ops = some s' → Inv1 s' := by
  intro ops
  induction ops with
  | nil =>
    intro s s' hi h
    injection h with h2
    subst h2
    exact hi
  | cons op ops ih =>
    intro s s' hi h
    unfold execOps at h
    split at h
    · simp at h
    · exact ih _ _ ((step_stepOk (by assumption)).1 hi) h

/-! ## Claim theorems -/

/-- C1: For every sequence of public operations on `Streams` (write, read,
read_unordered, received, received_reset, reset, received_ack_of,
received_max_data, zero_rtt_rejected, and the rest), after each completed
call the connection-level accounting satisfies `data_sent ≤ max_data` and
`unacked_data ≤ send_window`; in particular the subtractions
`max_data - data_sent` and `send_window - unacked_data` performed at the
start of `write` never underflow. -/
theorem c1_flow_invariant (side : Side) (mru mrb sw rw srw : Nat) (s0 s' : Streams)
    (ops : List Op) (h0 : Streams.new side mru mrb sw rw srw = some s0)
    (h : execOps s0 ops = some s') :
    Inv1 s' ∧ (s'.writeLimit).isSome = true := by
  have hc := new_counters h0
  have hbase : Inv1 s0 := by
    constructor
    · rw [hc.1]
      exact Nat.zero_le _
    · rw [hc.2.2.1]
      exact Nat.zero_le _
  have hinv := execOps_inv ops s0 s' hbase h
  exact ⟨hinv, writeLimit_isSome_of_inv hinv⟩

theorem c1_flow_invariant_witness :
    (Streams.new Side.client 1 1 8 8 8).isSome = true ∧
    ((Streams.new Side.client 1 1 8 8 8).map
      (fun s0 => decide (Inv1 s0) && (s0.writeLimit).isSome)) = some true := by
  obtain ⟨s0, hs0⟩ : ∃ s0, Streams.new Side.client 1 1 8 8 8 = some s0 := ⟨_, rfl⟩
  have hmain := c1_flow_invariant Side.client 1 1 8 8 8 s0 s0 [] hs0 rfl
  refine ⟨by rw [hs0]; rfl, ?_⟩
  rw [hs0]
  simp only [Option.map_some']
  rw [hmain.2, decide_eq_true hmain.1]
  rfl

/-- C4: `add_read_credits(k)` returns `ShouldTransmit(true)` only when, after
saturating-adding `k` to `local_max_data`, `local_max_data ≤ 2^62 - 1` and
`local_max_data - sent_max_data ≥ receive_window / 8`; once `local_max_data`
exceeds `2^62 - 1` the call returns `ShouldTransmit(false)` and leaves it
above that bound, and no public operation ever decreases `local_max_data`,
so every subsequent call returns `ShouldTransmit(false)`. -/
theorem c4_add_read_credits :
    (∀ (s : Streams) (k : Nat) (t : Bool) (s' : Streams),
      s.addReadCredits k = some (t, s') → t = true →
        s'.localMaxData = satAdd s.localMaxData k ∧
        s'.localMaxData ≤ VARINTMAX ∧
        s.sentMaxData ≤ s'.localMaxData ∧
        s.receiveWindow / 8 ≤ s'.localMaxData - s.sentMaxData) ∧
    (∀ (s : Streams) (k : Nat), VARINTMAX < s.localMaxData →
      ∃ s', s.addReadCredits k = some (false, s') ∧ VARINTMAX < s'.localMaxData) ∧
    (∀ (s : Streams) (op : Op) (s' : Streams), s.localMaxData ≤ U64MAX →
      step s op = some s' → s.localMaxData ≤ s'.localMaxData) := by
  refine ⟨?_, ?_, ?_⟩
  · intro s k t s' h ht
    subst ht
    have hst := addReadCredits_state h
    subst hst
    unfold Streams.addReadCredits at h
    simp only [] at h
    split at h
    · simp at h
    next hle =>
      split at h
      · simp at h
      next diff hdiff =>
        obtain ⟨h1, h2⟩ := subU_eq_some hdiff
        simp only [Option.some.injEq, Prod.mk.injEq] at h
        have ht := h.1
        simp only [decide_eq_true_eq] at ht
        refine ⟨rfl, ?_, h1, ?_⟩
        · show satAdd s.localMaxData k ≤ VARINTMAX
          omega
        · show s.receiveWindow / 8 ≤ satAdd s.localMaxData k - s.sentMaxData
          omega
  · intro s k hbig
    refine ⟨{ s with localMaxData := satAdd s.localMaxData k }, ?_, ?_⟩
    · unfold Streams.addReadCredits
      simp only []
      split
      · rfl
      next hc =>
        exfalso
        have : VARINTMAX < satAdd s.localMaxData k := by
          unfold satAdd U64MAX VARINTMAX at *
          omega
        exact hc this
    · show VARINTMAX < satAdd s.localMaxData k
      unfold satAdd U64MAX VARINTMAX at *
      omega
  · intro s op s' hr h
    exact ((step_stepOk h).2 hr).1

theorem c4_add_read_credits_witness :
    (({ wBase with localMaxData := 72 } : Streams).localMaxData = satAdd wBase.localMaxData 8 ∧
      ({ wBase with localMaxData := 72 } : Streams).localMaxData ≤ VARINTMAX ∧
      wBase.sentMaxData ≤ ({ wBase with localMaxData := 72 } : Streams).localMaxData ∧
      wBase.receiveWindow / 8 ≤
        ({ wBase with localMaxData := 72 } : Streams).localMaxData - wBase.sentMaxData) ∧
    (Streams.addReadCredits c4big 8 =
      some (false, { c4big with localMaxData := satAdd c4big.localMaxData 8 }) ∧
      VARINTMAX < satAdd c4big.localMaxData 8) ∧
    wBase.localMaxData ≤ (wBase.receivedMaxData 5).localMaxData := by
  have h1 : Streams.addReadCredits wBase 8 =
      some (true, { wBase with localMaxData := 72 }) := rfl
  have hm := c4_add_read_credits.1 wBase 8 true { wBase with localMaxData := 72 } h1 rfl
  obtain ⟨s2, hs2, hgt⟩ := c4_add_read_credits.2.1 c4big 8 (by decide)
  have hs2e := addReadCredits_state hs2
  rw [hs2e] at hs2 hgt
  have h3 := c4_add_read_credits.2.2 wBase (Op.receivedMaxData 5)
    (wBase.receivedMaxData 5) (by decide) rfl
  exact ⟨hm, ⟨hs2, hgt⟩, h3⟩

theorem validate_uni_local {s : Streams} {id : StreamId} (h1 : id.initiator = s.side)
    (h2 : id.dir = Dir.uni) :
    s.validateReceiveId id = .error TransportError.streamStateError := by
  unfold Streams.validateReceiveId
  rw [if_pos h1, h2]

theorem validate_bi_unopened {s : Streams} {id : StreamId} (h1 : id.initiator = s.side)
    (h2 : id.dir = Dir.bi) (h3 : s.next Dir.bi ≤ id.index) :
    s.validateReceiveId id = .error TransportError.streamStateError := by
  unfold Streams.validateReceiveId
  rw [if_pos h1, h2]
  simp only [if_pos h3]

theorem validate_remote_limit {s : Streams} {id : StreamId} (h1 : id.initiator ≠ s.side)
    (h2 : s.maxRemote id.dir ≤ id.index) :
    s.validateReceiveId id = .error TransportError.streamLimitError := by
  unfold Streams.validateReceiveId
  rw [if_neg h1, if_pos h2]

/-- C3: `received` and `received_reset` fail with `STREAM_STATE_ERROR` for a
locally-initiated unidirectional id and for a locally-initiated bidirectional
id that was never opened, and with `STREAM_LIMIT_ERROR` for a peer-initiated
id at or beyond `max_remote`; in each error case the `Streams` state is
unmodified. -/
theorem c3_validate_receive_id :
    (∀ (s : Streams) (f : StreamFrame), f.id.initiator = s.side → f.id.dir = Dir.uni →
      s.received f = some (.error TransportError.streamStateError, s)) ∧
    (∀ (s : Streams) (f : ResetStreamFrame), f.id.initiator = s.side → f.id.dir = Dir.uni →
      s.receivedReset f = some (.error TransportError.streamStateError, s)) ∧
    (∀ (s : Streams) (f : StreamFrame), f.id.initiator = s.side → f.id.dir = Dir.bi →
      s.next Dir.bi ≤ f.id.index →
      s.received f = some (.error TransportError.streamStateError, s)) ∧
    (∀ (s : Streams) (f : ResetStreamFrame), f.id.initiator = s.side → f.id.dir = Dir.bi →
      s.next Dir.bi ≤ f.id.index →
      s.receivedReset f = some (.error TransportError.streamStateError, s)) ∧
    (∀ (s : Streams) (f : StreamFrame), f.id.initiator ≠ s.side →
      s.maxRemote f.id.dir ≤ f.id.index →
      s.received f = some (.error TransportError.streamLimitError, s)) ∧
    (∀ (s : Streams) (f : ResetStreamFrame), f.id.initiator ≠ s.side →
      s.maxRemote f.id.dir ≤ f.id.index →
      s.receivedReset f = some (.error TransportError.streamLimitError, s)) := by
  refine ⟨?_, ?_, ?_, ?_, ?_, ?_⟩
  · intro s f h1 h2
    unfold Streams.received
    rw [validate_uni_local h1 h2]
  · intro s f h1 h2
    unfold Streams.receivedReset
    rw [validate_uni_local h1 h2]
  · intro s f h1 h2 h3
    unfold Streams.received
    rw [validate_bi_unopened h1 h2 h3]
  · intro s f h1 h2 h3
    unfold Streams.receivedReset
    rw [validate_bi_unopened h1 h2 h3]
  · intro s f h1 h2
    unfold Streams.received
    rw [validate_remote_limit h1 h2]
  · intro s f h1 h2
    unfold Streams.receivedReset
    rw [validate_remote_limit h1 h2]

theorem c3_validate_receive_id_witness :
    Streams.received wBase ⟨StreamId.mk Side.client Dir.uni 0, 0, false, 0⟩ =
      some (.error TransportError.streamStateError, wBase) ∧
    Streams.receivedReset wBase ⟨StreamId.mk Side.client Dir.uni 0, 0, 16⟩ =
      some (.error TransportError.streamStateError, wBase) ∧
    Streams.received wBase ⟨StreamId.mk Side.client Dir.bi 0, 0, false, 0⟩ =
      some (.error TransportError.streamStateError, wBase) ∧
    Streams.receivedReset wBase ⟨StreamId.mk Side.client Dir.bi 0, 0, 16⟩ =
      some (.error TransportError.streamStateError, wBase) ∧
    Streams.received wBase ⟨StreamId.mk Side.server Dir.bi 5, 0, false, 0⟩ =
      some (.error TransportError.streamLimitError, wBase) ∧
    Streams.receivedReset wBase ⟨StreamId.mk Side.server Dir.bi 5, 0, 16⟩ =
      some (.error TransportError.streamLimitError, wBase) := by
  refine ⟨?_, ?_, ?_, ?_, ?_, ?_⟩
  · exact c3_validate_receive_id.1 wBase _ rfl rfl
  · exact c3_validate_receive_id.2.1 wBase _ rfl rfl
  · exact c3_validate_receive_id.2.2.1 wBase _ rfl rfl (by decide)
  · exact c3_validate_receive_id.2.2.2.1 wBase _ rfl rfl (by decide)
  · exact c3_validate_receive_id.2.2.2.2.1 wBase _ (by decide) (by decide)
  · exact c3_validate_receive_id.2.2.2.2.2 wBase _ (by decide) (by decide)

/-- C7 counterexample: `c7state`'s stream `svid` is in the send map with state
`Ready`, yet `finish` returns `Stopped(0)` rather than succeeding, because
`stop_reason` is checked first. -/
theorem c7_finish_counterexample :
    (c7state.send svid).map Send.state = some SendState.ready ∧
    (Streams.finish c7state svid).1 = Except.error (FinishError.stopped 0) ∧
    (Streams.finish c7state svid).1 ≠ Except.ok () := by
  refine ⟨rfl, rfl, ?_⟩
  intro hcontra
  rw [show (Streams.finish c7state svid).1 = Except.error (FinishError.stopped 0) from rfl]
    at hcontra
  exact Except.noConfusion hcontra

/-- C7 (amended): `finish(id)` returns `Stopped(code)` whenever the stream's
`stop_reason` is set (even in state `Ready`); otherwise it returns
`UnknownStream` unless the state is `Ready`; when the state is `Ready` and no
stop reason is set, it succeeds, transitions to `DataSent{finish_acked:
false}`, sets `fin_pending`, and pushes the stream onto the pending queue if
it was not already pending.  An id absent from the send map yields
`UnknownStream`. -/
theorem c7_finish_amended (s : Streams) (id : StreamId) :
    (s.send id = none → s.finish id = (.error FinishError.unknownStream, s)) ∧
    (∀ st : Send, s.send id = some st →
      ((∀ c, st.stopReason = some c → s.finish id = (.error (FinishError.stopped c), s)) ∧
       (st.stopReason = none → st.state ≠ SendState.ready →
         s.finish id = (.error FinishError.unknownStream, s)) ∧
       (st.stopReason = none → st.state = SendState.ready →
         s.finish id =
           (.ok (), { s with
             send := upd s.send id
               (some { st with state := SendState.dataSent false, finPending := true }),
             pending := if st.isPending then s.pending else s.pending ++ [id] })))) := by
  constructor
  · intro h0
    unfold Streams.finish
    rw [h0]
  · intro st hst
    obtain ⟨md, stt, pnd, fp, cb, sr⟩ := st
    refine ⟨?_, ?_, ?_⟩
    · intro c hc
      cases hc
      unfold Streams.finish Send.finish
      rw [hst]
    · intro hc hnr
      cases hc
      unfold Streams.finish Send.finish
      rw [hst]
      simp only [if_neg hnr]
    · intro hc hr
      cases hc
      cases hr
      unfold Streams.finish Send.finish
      rw [hst]
      rfl

theorem c7_finish_amended_witness :
    Streams.finish c7state svid = (Except.error (FinishError.stopped 0), c7state) := by
  exact ((c7_finish_amended c7state svid).2 { Send.new 42 with stopReason := some 0 } rfl).1 0 rfl

/-- Projections unchanged by `on_stream_frame` (it only touches `events`,
`next_remote` and `opened`). -/
theorem onStreamFrame_proj (s : Streams) (b : Bool) (id : StreamId) :
    (s.onStreamFrame b id).send = s.send ∧
    (s.onStreamFrame b id).recv = s.recv ∧
    (s.onStreamFrame b id).pending = s.pending ∧
    (s.onStreamFrame b id).dataRecvd = s.dataRecvd ∧
    (s.onStreamFrame b id).localMaxData = s.localMaxData ∧
    (s.onStreamFrame b id).sentMaxData = s.sentMaxData ∧
    (s.onStreamFrame b id).receiveWindow = s.receiveWindow ∧
    (s.onStreamFrame b id).maxRemote = s.maxRemote ∧
    (s.onStreamFrame b id).next = s.next ∧
    (s.onStreamFrame b id).side = s.side ∧
    (s.onStreamFrame b id).connectionBlocked = s.connectionBlocked ∧
    (s.onStreamFrame b id).maxData = s.maxData ∧
    (s.onStreamFrame b id).dataSent = s.dataSent ∧
    (s.onStreamFrame b id).unackedData = s.unackedData ∧
    (s.onStreamFrame b id).sendWindow = s.sendWindow ∧
    (s.onStreamFrame b id).sendStreams = s.sendStreams ∧
    (s.onStreamFrame b id).streamReceiveWindow = s.streamReceiveWindow := by
  unfold Streams.onStreamFrame
  repeat' split
  all_goals simp_all

/-- When not asked to notify readability, `on_stream_frame` leaves `events`
unchanged. -/
theorem onStreamFrame_events_quiet (s : Streams) (id : StreamId) :
    (s.onStreamFrame false id).events = s.events := by
  unfold Streams.onStreamFrame
  repeat' split
  all_goals simp_all

/-- C8 counterexample: `c8state`'s stream `svid` is in the send map and not
pending, yet `received_stop_sending` leaves the pending queue empty — the
stream is never scheduled for transmission. -/
theorem c8_stop_sending_counterexample :
    (c8state.send svid).isSome = true ∧
    c8state.pending = [] ∧
    (Streams.receivedStopSending c8state svid 3).pending = [] := by
  refine ⟨rfl, rfl, ?_⟩
  have h := (onStreamFrame_proj
    { c8state with events := c8state.events ++ [StreamEvent.stopped svid 3],
                   send := upd c8state.send svid (some ((Send.new 42).stop 3)) }
    false svid).2.2.1
  exact h

/-- C8 (amended): for an id in the send map, `received_stop_sending(id, code)`
sets the stream's `stop_reason` to `Some(code)` and enqueues a
`Stopped{id, code}` event, but never modifies the pending transmission queue
(the stream is not scheduled); for an id absent from the send map it does
nothing. -/
theorem c8_stop_sending_amended (s : Streams) (id : StreamId) (c : Nat) :
    (s.send id = none → s.receivedStopSending id c = s) ∧
    (∀ st : Send, s.send id = some st →
      ((s.receivedStopSending id c).send id = some { st with stopReason := some c } ∧
       (s.receivedStopSending id c).events = s.events ++ [StreamEvent.stopped id c] ∧
       (s.receivedStopSending id c).pending = s.pending)) := by
  constructor
  · intro h0
    unfold Streams.receivedStopSending
    rw [h0]
  · intro st hst
    unfold Streams.receivedStopSending
    rw [hst]
    refine ⟨?_, ?_, ?_⟩
    · rw [(onStreamFrame_proj _ false id).1]
      exact upd_self _ _ _
    · exact onStreamFrame_events_quiet _ id
    · exact (onStreamFrame_proj _ false id).2.2.1

theorem c8_stop_sending_amended_witness :
    (Streams.receivedStopSending c8state svid 3).send svid =
      some { Send.new 42 with stopReason := some 3 } ∧
    (Streams.receivedStopSending c8state svid 3).events = [StreamEvent.stopped svid 3] ∧
    (Streams.receivedStopSending c8state svid 3).pending = [] := by
  have hm := (c8_stop_sending_amended c8state svid 3).2 (Send.new 42) rfl
  exact ⟨hm.1, hm.2.1, hm.2.2⟩

/-- C9: in `Streams::write` the connection-level budget
`min(max_data - data_sent, send_window - unacked_data)` is checked before the
stream's own state: (1) if the id is in the send map and the budget is zero,
the call returns `Blocked` and the stream ends up marked connection-blocked,
regardless of `stop_reason` or writability; (2) for an id in the send map, any
non-`Blocked` error (`Stopped`, `UnknownStream`) is only reachable when the
budget is nonzero; (3) an id absent from the send map always yields
`UnknownStream` with the state unchanged. -/
theorem c9_write_blocked (s : Streams) (id : StreamId) (n : Nat) :
    (∀ st : Send, s.send id = some st → s.writeLimit = some 0 →
      ∃ s', s.write id n = some (Except.error WriteError.blocked, s') ∧
        s'.send id = some { st with connectionBlocked := true }) ∧
    (∀ (e : WriteError) (s' : Streams) (st : Send),
      s.write id n = some (Except.error e, s') → s.send id = some st →
      e ≠ WriteError.blocked → s.writeLimit ≠ some 0) ∧
    (∀ l : Nat, s.send id = none → s.writeLimit = some l →
      s.write id n = some (Except.error WriteError.unknownStream, s)) := by
  have h1 : ∀ st : Send, s.send id = some st → s.writeLimit = some 0 →
      ∃ s', s.write id n = some (Except.error WriteError.blocked, s') ∧
        s'.send id = some { st with connectionBlocked := true } := by
    intro st hst hlim
    unfold Streams.write
    rw [hlim, hst]
    by_cases hcb : st.connectionBlocked = true
    · refine ⟨s, ?_, ?_⟩
      · simp [hcb]
      · rw [hst]
        obtain ⟨m1, m2, m3, m4, cb, m6⟩ := st
        simp only at hcb
        subst hcb
        rfl
    · refine ⟨{ s with send := upd s.send id (some { st with connectionBlocked := true }), connectionBlocked := id :: s.connectionBlocked }, ?_, ?_⟩
      · simp [hcb]
      · exact upd_self _ _ _
  refine ⟨h1, ?_, ?_⟩
  · intro e s' st hw hst hne hlim
    obtain ⟨s2, hw2, -⟩ := h1 st hst hlim
    rw [hw] at hw2
    simp only [Option.some.injEq, Prod.mk.injEq] at hw2
    obtain ⟨hw3, -⟩ := hw2
    injection hw3 with hw3
    exact hne hw3
  · intro l h0 hlim
    unfold Streams.write
    rw [hlim, h0]

theorem c9_write_blocked_witness :
    (∃ s', Streams.write c9state svid 3 = some (Except.error WriteError.blocked, s') ∧
      s'.send svid = some { Send.new 42 with connectionBlocked := true }) ∧
    Streams.writeLimit c9stop ≠ some 0 ∧
    Streams.write wBase wsid 3 = some (Except.error WriteError.unknownStream, wBase) := by
  refine ⟨?_, ?_, ?_⟩
  · exact (c9_write_blocked c9state svid 3).1 (Send.new 42) rfl rfl
  · obtain ⟨s', hs'⟩ : ∃ s', Streams.write c9stop svid 3 =
        some (Except.error (WriteError.stopped 7), s') := ⟨_, rfl⟩
    exact (c9_write_blocked c9stop svid 3).2.1 (WriteError.stopped 7) s'
      { Send.new 42 with stopReason := some 7 } hs' rfl (by decide)
  · exact (c9_write_blocked wBase wsid 3).2.2 0 rfl rfl

/-- C10: the send-window refund `pending.unacked()` is applied exactly once,
at reset time: (1) when `reset(id)` succeeds on a stream whose state is not
`DataRecvd`, the stream moves to `ResetSent` and `unacked_data` drops by
exactly `pending.unacked()`; (2) once the state is `ResetSent`, any
`received_ack_of` for a frame of that stream returns the state unchanged, so
the refund is never applied a second time; (3) `received_ack_of` for an id
absent from the send map also leaves the state unchanged. -/
theorem c10_reset_ack_noop (s : Streams) (id : StreamId) :
    (∀ (st : Send) (s' : Streams),
      s.send id = some st → st.state ≠ SendState.dataRecvd →
      s.reset id = some (Except.ok (), s') →
      (s'.send id = some { st with state := SendState.resetSent } ∧
       s'.unackedData = s.unackedData - st.pending.unacked ∧
       st.pending.unacked ≤ s.unackedData)) ∧
    (∀ (st : Send) (m : StreamMeta), m.id = id → s.send id = some st →
      st.state = SendState.resetSent → s.receivedAckOf m = some s) ∧
    (∀ m : StreamMeta, s.send m.id = none → s.receivedAckOf m = some s) := by
  refine ⟨?_, ?_, ?_⟩
  · intro st s' hst hdr hreset
    unfold Streams.reset at hreset
    rw [hst] at hreset
    split at hreset
    · simp at hreset
    · rename_i x st2 heq2
      injection heq2 with heq2
      subst heq2
      split at hreset
      · simp at hreset
      · rename_i hcond
        split at hreset
        · simp at hreset
        · rename_i ua hsub
          obtain ⟨hle, hua⟩ := subU_eq_some hsub
          simp only [Option.some.injEq, Prod.mk.injEq, true_and] at hreset
          subst hreset
          have hsr : st.reset = { st with state := SendState.resetSent } := by
            cases hss : st.state with
            | ready => unfold Send.reset; rw [hss]
            | dataSent b => unfold Send.reset; rw [hss]
            | dataRecvd => exact absurd hss hdr
            | resetSent => exact absurd (Or.inl hss) hcond
            | resetRecvd => exact absurd (Or.inr hss) hcond
          refine ⟨?_, hua, hle⟩
          show upd s.send id (some st.reset) id = some { st with state := SendState.resetSent }
          rw [upd_self, hsr]
  · intro st m hmid hst hstate
    unfold Streams.receivedAckOf
    rw [hmid, hst]
    have hr : st.isReset = true := by unfold Send.isReset; rw [hstate]
    simp [hr]
  · intro m h0
    unfold Streams.receivedAckOf
    rw [h0]

theorem c10_reset_ack_noop_witness :
    (∃ s', Streams.reset c8state svid = some (Except.ok (), s') ∧
      s'.send svid = some { Send.new 42 with state := SendState.resetSent } ∧
      s'.unackedData = c8state.unackedData - (Send.new 42).pending.unacked) ∧
    Streams.receivedAckOf c10state { id := svid, offsets := (0, 0), fin := false } =
      some c10state ∧
    Streams.receivedAckOf wBase { id := wsid, offsets := (0, 0), fin := false } =
      some wBase := by
  refine ⟨?_, ?_, ?_⟩
  · obtain ⟨s', hs'⟩ : ∃ s', Streams.reset c8state svid = some (Except.ok (), s') := ⟨_, rfl⟩
    have h1 := (c10_reset_ack_noop c8state svid).1 (Send.new 42) s' rfl (by decide) hs'
    exact ⟨s', hs', h1.1, h1.2.1⟩
  · exact (c10_reset_ack_noop c10state svid).2.1
      { Send.new 42 with state := SendState.resetSent }
      { id := svid, offsets := (0, 0), fin := false } rfl rfl rfl
  · exact (c10_reset_ack_noop wBase wsid).2.2 { id := wsid, offsets := (0, 0), fin := false } rfl

theorem c6step_fields {d : Dir} {s s' : Streams}
    (h1 : s'.opened = s.opened) (h2 : s'.events = s.events) : C6Step d s s' := by
  constructor
  · intro h0
    rw [h1]
    exact h0
  · intro hni
    rw [h2]
    exact hni

theorem c6step_rfl {d : Dir} (s : Streams) : C6Step d s s :=
  c6step_fields rfl rfl

theorem c6step_trans {d : Dir} {s t u : Streams} (a : C6Step d s t) (b : C6Step d t u) :
    C6Step d s u :=
  ⟨fun h0 => b.1 (a.1 h0), fun hni => b.2 (a.2 hni)⟩

theorem c6step_trans2 {d : Dir} (t : Streams) {s u : Streams} (h1 : C6Step d s t)
    (h2 : C6Step d t u) : C6Step d s u :=
  c6step_trans h1 h2

theorem c6step_ite {d : Dir} {P : Prop} [Decidable P] {s X Y : Streams} (hx : C6Step d s X)
    (hy : C6Step d s Y) : C6Step d s (if P then X else Y) := by
  split
  · exact hx
  · exact hy

theorem c6step_append {d : Dir} {s s' : Streams} {e : StreamEvent}
    (h1 : s'.opened = s.opened) (h2 : s'.events = s.events ++ [e])
    (he : e ≠ StreamEvent.opened d) : C6Step d s s' := by
  constructor
  · intro h0
    rw [h1]
    exact h0
  · intro hni hmem
    rw [h2] at hmem
    rcases List.mem_append.mp hmem with hm | hm
    · exact hni hm
    · exact he (List.mem_singleton.mp hm).symm

theorem c6step_clearflag {d : Dir} {s s' : Streams} {d2 : Dir}
    (h1 : s'.opened = upd s.opened d2 false) (h2 : s'.events = s.events) : C6Step d s s' := by
  constructor
  · intro h0
    rw [h1]
    by_cases hd : d = d2
    · subst hd
      exact upd_self _ _ _
    · rw [upd_other _ _ _ _ hd]
      exact h0
  · intro hni
    rw [h2]
    exact hni

theorem c6step_pop {d : Dir} {s s' : Streams} {e0 : StreamEvent} {rest : List StreamEvent}
    (h1 : s'.opened = s.opened) (hev : s.events = e0 :: rest) (h2 : s'.events = rest) :
    C6Step d s s' := by
  constructor
  · intro h0
    rw [h1]
    exact h0
  · intro hni hmem
    rw [h2] at hmem
    exact hni (hev ▸ List.mem_cons_of_mem _ hmem)

/-- `on_stream_frame` cannot set `opened[d]` unless called for a new remote
stream of direction `d`, and only ever enqueues `Readable` events. -/
theorem onStreamFrame_c6 {d : Dir} (s : Streams) (b : Bool) (id : StreamId)
    (hno : ¬ (id.initiator ≠ s.side ∧ id.dir = d ∧ s.nextRemote d ≤ id.index)) :
    C6Step d s (s.onStreamFrame b id) := by
  unfold Streams.onStreamFrame
  split
  · split
    · exact c6step_append rfl rfl (by simp)
    · exact c6step_rfl s
  · rename_i hc1
    split
    · rename_i hc2
      by_cases hd : id.dir = d
      · exact absurd ⟨hc1, hd, hd ▸ hc2⟩ hno
      · constructor
        · intro h0
          show upd s.opened id.dir true d = false
          rw [upd_other _ _ _ _ (Ne.symm hd)]
          exact h0
        · intro hni
          exact hni
    · split
      · exact c6step_append rfl rfl (by simp)
      · exact c6step_rfl s

theorem c6step_into_onStreamFrame {d : Dir} {s t : Streams} (b : Bool) (id : StreamId)
    (hno : ¬ (id.initiator ≠ t.side ∧ id.dir = d ∧ t.nextRemote d ≤ id.index))
    (h0 : C6Step d s t) : C6Step d s (t.onStreamFrame b id) :=
  c6step_trans h0 (onStreamFrame_c6 t b id hno)

theorem addReadCredits_c6 {d : Dir} (sMid : Streams) {s : Streams} {c : Nat} {t : Bool}
    {s1 : Streams} (h : sMid.addReadCredits c = some (t, s1)) (h0 : C6Step d s sMid) :
    C6Step d s s1 := by
  rw [addReadCredits_state h]
  exact c6step_trans h0 (c6step_fields rfl rfl)

theorem write_c6 {d : Dir} {s : Streams} {id : StreamId} {n : Nat} {r : Except WriteError Nat}
    {s' : Streams} (h : s.write id n = some (r, s')) : C6Step d s s' := by
  unfold Streams.write at h
  split at h
  · simp at h
  case _ limit hlim =>
    split at h
    · simp only [Option.some.injEq, Prod.mk.injEq] at h
      obtain ⟨-, h2⟩ := h
      subst h2
      exact c6step_rfl s
    case _ st hst =>
      split at h
      · split at h <;>
          (simp only [Option.some.injEq, Prod.mk.injEq] at h
           obtain ⟨-, h2⟩ := h
           subst h2
           first
             | exact c6step_fields rfl rfl
             | exact c6step_rfl s)
      · split at h
        · simp at h
        · simp only [Option.some.injEq, Prod.mk.injEq] at h
          obtain ⟨-, h2⟩ := h
          subst h2
          exact c6step_rfl s
        · simp only [] at h
          split at h
          · simp at h
          · simp at h
          · rename_i len st' hw xa xb ds ua hds hua
            simp only [Option.some.injEq, Prod.mk.injEq] at h
            obtain ⟨-, h2⟩ := h
            subst h2
            exact c6step_fields rfl rfl

theorem read_c6 {d : Dir} {s : Streams} {id : StreamId} {n : Nat}
    {r : Except ReadError (Option ReadResult)} {s' : Streams}
    (h : s.read id n = some (r, s')) : C6Step d s s' := by
  unfold Streams.read at h
  split at h
  · simp only [Option.some.injEq, Prod.mk.injEq] at h
    obtain ⟨-, h2⟩ := h
    subst h2
    exact c6step_rfl s
  · split at h
    · split at h
      · simp at h
      · split at h
        · simp at h
        · rename_i rs' heq2 x1 fst tms heq1 x2 tmd s1 heq
          simp only [Option.some.injEq, Prod.mk.injEq] at h
          obtain ⟨-, h2⟩ := h
          subst h2
          exact addReadCredits_c6 { s with recv := upd s.recv id (some rs') } heq
            (c6step_fields rfl rfl)
    · simp only [Option.some.injEq, Prod.mk.injEq] at h
      obtain ⟨-, h2⟩ := h
      subst h2
      exact c6step_fields rfl rfl
    · simp only [Option.some.injEq, Prod.mk.injEq] at h
      obtain ⟨-, h2⟩ := h
      subst h2
      exact c6step_fields rfl rfl
    · simp only [Option.some.injEq, Prod.mk.injEq] at h
      obtain ⟨-, h2⟩ := h
      subst h2
      exact c6step_fields rfl rfl

theorem readUnordered_c6 {d : Dir} {s : Streams} {id : StreamId}
    {r : Except ReadError (Option ReadUnorderedResult)} {s' : Streams}
    (h : s.readUnordered id = some (r, s')) : C6Step d s s' := by
  unfold Streams.readUnordered at h
  split at h
  · simp only [Option.some.injEq, Prod.mk.injEq] at h
    obtain ⟨-, h2⟩ := h
    subst h2
    exact c6step_rfl s
  · split at h
    · split at h
      · simp at h
      · split at h
        · simp at h
        · rename_i off rs' heq2 x1 fst tms heq1 x2 tmd s1 heq
          simp only [Option.some.injEq, Prod.mk.injEq] at h
          obtain ⟨-, h2⟩ := h
          subst h2
          exact addReadCredits_c6 { s with recv := upd s.recv id (some rs') } heq
            (c6step_fields rfl rfl)
    · simp only [Option.some.injEq, Prod.mk.injEq] at h
      obtain ⟨-, h2⟩ := h
      subst h2
      exact c6step_fields rfl rfl
    · simp only [Option.some.injEq, Prod.mk.injEq] at h
      obtain ⟨-, h2⟩ := h
      subst h2
      exact c6step_fields rfl rfl
    · simp only [Option.some.injEq, Prod.mk.injEq] at h
      obtain ⟨-, h2⟩ := h
      subst h2
      exact c6step_fields rfl rfl

theorem received_c6 {d : Dir} {s : Streams} {f : StreamFrame} {r : Except TransportError Bool}
    {s' : Streams} (h : s.received f = some (r, s'))
    (hno : ¬ (f.id.initiator ≠ s.side ∧ f.id.dir = d ∧ s.nextRemote d ≤ f.id.index)) :
    C6Step d s s' := by
  unfold Streams.received at h
  split at h
  · simp only [Option.some.injEq, Prod.mk.injEq] at h
    obtain ⟨-, h2⟩ := h
    subst h2
    exact c6step_rfl s
  · split at h
    · simp only [Option.some.injEq, Prod.mk.injEq] at h
      obtain ⟨-, h2⟩ := h
      subst h2
      exact c6step_rfl s
    · split at h
      · simp only [Option.some.injEq, Prod.mk.injEq] at h
        obtain ⟨-, h2⟩ := h
        subst h2
        exact c6step_rfl s
      · split at h
        · simp at h
        · simp only [Option.some.injEq, Prod.mk.injEq] at h
          obtain ⟨-, h2⟩ := h
          subst h2
          exact c6step_rfl s
        · split at h
          · simp at h
          · simp only [] at h
            split at h
            · simp only [Option.some.injEq, Prod.mk.injEq] at h
              obtain ⟨-, h2⟩ := h
              subst h2
              exact c6step_into_onStreamFrame _ _ hno (c6step_fields rfl rfl)
            · split at h
              · simp at h
              · rename_i newBytes rs' hing x1 dr hdr hstop x2 tmd s1 heq
                simp only [Option.some.injEq, Prod.mk.injEq] at h
                obtain ⟨-, h2⟩ := h
                subst h2
                exact addReadCredits_c6
                  (if rs'.isClosed = true then
                    { s with recv := upd (upd s.recv f.id (some rs')) f.id none,
                             dataRecvd := dr }
                  else
                    { s with recv := upd s.recv f.id (some rs'), dataRecvd := dr }) heq
                  (c6step_ite (c6step_fields rfl rfl)
                    (c6step_fields rfl rfl))

theorem receivedReset_c6 {d : Dir} {s : Streams} {f : ResetStreamFrame}
    {r : Except TransportError Bool} {s' : Streams} (h : s.receivedReset f = some (r, s'))
    (hno : ¬ (f.id.initiator ≠ s.side ∧ f.id.dir = d ∧ s.nextRemote d ≤ f.id.index)) :
    C6Step d s s' := by
  unfold Streams.receivedReset at h
  split at h
  · simp only [Option.some.injEq, Prod.mk.injEq] at h
    obtain ⟨-, h2⟩ := h
    subst h2
    exact c6step_rfl s
  · split at h
    · simp only [Option.some.injEq, Prod.mk.injEq] at h
      obtain ⟨-, h2⟩ := h
      subst h2
      exact c6step_rfl s
    · try simp only [] at h
      split at h
      · simp only [Option.some.injEq, Prod.mk.injEq] at h
        obtain ⟨-, h2⟩ := h
        subst h2
        exact c6step_rfl s
      · split at h
        · simp only [Option.some.injEq, Prod.mk.injEq] at h
          obtain ⟨-, h2⟩ := h
          subst h2
          exact c6step_rfl s
        · split at h
          · split at h
            · simp at h
            · simp at h
            · split at h
              · simp at h
              · split at h
                · simp at h
                · rename_i rs' hres q1 q2 q3 q4 q5 q6 q7 q8 q9 q10 q11 q12 q13 q14
                  simp only [Option.some.injEq, Prod.mk.injEq] at h
                  obtain ⟨-, h2⟩ := h
                  subst h2
                  refine addReadCredits_c6 _ q14 ?_
                  refine c6step_trans2
                    ((if rs'.assembler.stopped = true then
                        { s with recv := upd s.recv f.id none }
                      else
                        { s with recv := upd s.recv f.id (some rs') }).onStreamFrame
                        (!rs'.assembler.stopped) f.id)
                    ?_ (c6step_fields rfl rfl)
                  refine c6step_into_onStreamFrame _ _ ?_ ?_
                  · split <;> exact hno
                  · exact c6step_ite (c6step_fields rfl rfl) (c6step_fields rfl rfl)
          · simp only [Option.some.injEq, Prod.mk.injEq] at h
            obtain ⟨-, h2⟩ := h
            subst h2
            refine c6step_into_onStreamFrame _ _ ?_ ?_
            · split <;> exact hno
            · exact c6step_ite (c6step_fields rfl rfl) (c6step_fields rfl rfl)

theorem receivedStopSending_c6 {d : Dir} (s : Streams) (id : StreamId) (errorCode : Nat)
    (hno : ¬ (id.initiator ≠ s.side ∧ id.dir = d ∧ s.nextRemote d ≤ id.index)) :
    C6Step d s (s.receivedStopSending id errorCode) := by
  unfold Streams.receivedStopSending
  split
  · exact c6step_rfl s
  · exact c6step_into_onStreamFrame _ _ hno (c6step_append rfl rfl (by simp))

theorem finish_c6 {d : Dir} (s : Streams) (id : StreamId) : C6Step d s (s.finish id).2 := by
  unfold Streams.finish
  split
  · exact c6step_rfl s
  · split
    · exact c6step_rfl s
    · exact c6step_fields rfl rfl

theorem reset_c6 {d : Dir} {s : Streams} {id : StreamId} {r : Except Unit Unit} {s' : Streams}
    (h : s.reset id = some (r, s')) : C6Step d s s' := by
  unfold Streams.reset at h
  split at h
  · simp only [Option.some.injEq, Prod.mk.injEq] at h
    obtain ⟨-, h2⟩ := h
    subst h2
    exact c6step_rfl s
  · split at h
    · simp only [Option.some.injEq, Prod.mk.injEq] at h
      obtain ⟨-, h2⟩ := h
      subst h2
      exact c6step_rfl s
    · split at h
      · simp at h
      · rename_i st hst hnr ua hua
        simp only [Option.some.injEq, Prod.mk.injEq] at h
        obtain ⟨-, h2⟩ := h
        subst h2
        exact c6step_fields rfl rfl

theorem resetAcked_c6 {d : Dir} {s : Streams} {id : StreamId} {s' : Streams}
    (h : s.resetAcked id = some s') : C6Step d s s' := by
  unfold Streams.resetAcked at h
  split at h
  · injection h with h2
    subst h2
    exact c6step_rfl s
  · split at h
    · split at h
      · simp at h
      · injection h with h2
        subst h2
        exact c6step_fields rfl rfl
    · injection h with h2
      subst h2
      exact c6step_rfl s

theorem stop_c6 {d : Dir} {s : Streams} {id : StreamId} {r : Except Unit StopResult}
    {s' : Streams} (h : s.stop id = some (r, s')) : C6Step d s s' := by
  unfold Streams.stop at h
  split at h
  · simp only [Option.some.injEq, Prod.mk.injEq] at h
    obtain ⟨-, h2⟩ := h
    subst h2
    exact c6step_rfl s
  · split at h
    · simp only [Option.some.injEq, Prod.mk.injEq] at h
      obtain ⟨-, h2⟩ := h
      subst h2
      exact c6step_rfl s
    · try simp only [] at h
      split at h
      · simp at h
      · split at h
        · simp at h
        · simp only [Option.some.injEq, Prod.mk.injEq] at h
          obtain ⟨-, h2⟩ := h
          subst h2
          refine @addReadCredits_c6 ?d ?sMid s ?c ?t _ ?heqq ?h0
          case heqq => assumption
          case h0 => exact c6step_fields rfl rfl

theorem receivedAckOf_c6 {d : Dir} {s : Streams} {m : StreamMeta} {s' : Streams}
    (h : s.receivedAckOf m = some s') : C6Step d s s' := by
  unfold Streams.receivedAckOf at h
  split at h
  · injection h with h2
    subst h2
    exact c6step_rfl s
  · split at h
    · injection h with h2
      subst h2
      exact c6step_rfl s
    · split at h
      · simp at h
      · split at h
        · simp at h
        · rename_i len hlen ua hua
          try simp only [] at h
          split at h
          · split at h
            · simp at h
            · injection h with h2
              subst h2
              exact c6step_append rfl rfl (by simp)
          · injection h with h2
            subst h2
            exact c6step_fields rfl rfl

theorem retransmit_c6 {d : Dir} (s : Streams) (m : StreamMeta) : C6Step d s (s.retransmit m) := by
  unfold Streams.retransmit
  split
  · exact c6step_rfl s
  · exact c6step_fields rfl rfl

theorem retransmitAllFor0rtt_c6 {d : Dir} {s : Streams} {s' : Streams}
    (h : s.retransmitAllFor0rtt = some s') : C6Step d s s' := by
  unfold Streams.retransmitAllFor0rtt at h
  split at h
  · simp at h
  · split at h
    · simp at h
    · injection h with h2
      subst h2
      exact c6step_fields rfl rfl

theorem receivedMaxStreams_c6 {d : Dir} (s : Streams) (dir : Dir) (count : Nat) :
    C6Step d s (s.receivedMaxStreams dir count).2 := by
  unfold Streams.receivedMaxStreams
  split
  · exact c6step_rfl s
  · split
    · exact c6step_append rfl rfl (by simp)
    · exact c6step_rfl s

theorem receivedMaxData_c6 {d : Dir} (s : Streams) (n : Nat) :
    C6Step d s (s.receivedMaxData n) := by
  unfold Streams.receivedMaxData
  exact c6step_fields rfl rfl

theorem receivedMaxStreamData_c6 {d : Dir} (s : Streams) (id : StreamId) (offset : Nat)
    (hno : ¬ (id.initiator ≠ s.side ∧ id.dir = d ∧ s.nextRemote d ≤ id.index)) :
    C6Step d s (s.receivedMaxStreamData id offset).2 := by
  unfold Streams.receivedMaxStreamData
  split
  · exact c6step_rfl s
  · split
    · refine c6step_into_onStreamFrame _ _ ?_ ?_
      · split <;> exact hno
      · exact c6step_ite (c6step_append rfl rfl (by simp)) (c6step_fields rfl rfl)
    · split
      · exact c6step_rfl s
      · exact c6step_into_onStreamFrame _ _ hno (c6step_rfl s)

theorem openStream_c6 {d : Dir} {s : Streams} {params : TransportParameters} {dir : Dir}
    {r : Option StreamId} {s' : Streams} (h : s.openStream params dir = some (r, s')) :
    C6Step d s s' := by
  unfold Streams.openStream at h
  split at h
  · simp only [Option.some.injEq, Prod.mk.injEq] at h
    obtain ⟨-, h2⟩ := h
    subst h2
    exact c6step_rfl s
  · try simp only [] at h
    split at h
    · simp at h
    · simp only [Option.some.injEq, Prod.mk.injEq] at h
      obtain ⟨-, h2⟩ := h
      subst h2
      exact c6step_fields rfl rfl

theorem setParams_c6 {d : Dir} {s : Streams} {params : TransportParameters} {s' : Streams}
    (h : s.setParams params = some s') : C6Step d s s' := by
  unfold Streams.setParams at h
  try simp only [] at h
  split at h
  · simp at h
  · injection h with h2
    subst h2
    unfold Streams.receivedMaxData
    exact c6step_fields rfl rfl

theorem allocRemoteStream_c6 {d : Dir} {s : Streams} {params : TransportParameters} {dir : Dir}
    {s' : Streams} (h : s.allocRemoteStream params dir = some s') : C6Step d s s' := by
  unfold Streams.allocRemoteStream at h
  try simp only [] at h
  split at h
  · simp at h
  · injection h with h2
    subst h2
    exact c6step_fields rfl rfl

theorem accept_c6 {d : Dir} (s : Streams) (dir : Dir) : C6Step d s (s.accept dir).2 := by
  unfold Streams.accept
  split
  · exact c6step_rfl s
  · exact c6step_ite (c6step_fields rfl rfl) (c6step_fields rfl rfl)

theorem zeroRttRejected_c6 {d : Dir} {s : Streams} {s' : Streams}
    (h : s.zeroRttRejected = some s') : C6Step d s s' := by
  unfold Streams.zeroRttRejected at h
  split at h
  · simp at h
  · split at h
    · simp at h
    · injection h with h2
      subst h2
      exact c6step_fields rfl rfl

theorem pollUnblocked_proj {s : Streams} {r : Option StreamId} {s1 : Streams}
    (h : s.pollUnblocked = some (r, s1)) : s1.opened = s.opened ∧ s1.events = s.events := by
  unfold Streams.pollUnblocked at h
  split at h
  · simp only [Option.some.injEq, Prod.mk.injEq] at h
    obtain ⟨-, h2⟩ := h
    subst h2
    exact ⟨rfl, rfl⟩
  · split at h
    · simp at h
    · simp only [Option.some.injEq, Prod.mk.injEq] at h
      obtain ⟨-, h2⟩ := h
      subst h2
      exact ⟨rfl, rfl⟩

theorem pollUnblocked_c6 {d : Dir} {s : Streams} {r : Option StreamId} {s1 : Streams}
    (h : s.pollUnblocked = some (r, s1)) : C6Step d s s1 :=
  c6step_fields (pollUnblocked_proj h).1 (pollUnblocked_proj h).2

theorem poll_c6 {d : Dir} {s : Streams} {r : Option StreamEvent} {s' : Streams}
    (h : s.poll = some (r, s')) : C6Step d s s' := by
  unfold Streams.poll at h
  split at h
  · simp only [Option.some.injEq, Prod.mk.injEq] at h
    obtain ⟨-, h2⟩ := h
    subst h2
    exact c6step_clearflag rfl rfl
  · split at h
    · simp only [Option.some.injEq, Prod.mk.injEq] at h
      obtain ⟨-, h2⟩ := h
      subst h2
      exact c6step_clearflag rfl rfl
    · split at h
      · simp at h
      · rename_i x1 r1 s1 hpu
        split at h
        · simp only [Option.some.injEq, Prod.mk.injEq] at h
          obtain ⟨-, h2⟩ := h
          subst h2
          exact pollUnblocked_c6 hpu
        · split at h
          · simp only [Option.some.injEq, Prod.mk.injEq] at h
            obtain ⟨-, h2⟩ := h
            subst h2
            exact pollUnblocked_c6 hpu
          · rename_i xev e0 rest hev
            simp only [Option.some.injEq, Prod.mk.injEq] at h
            obtain ⟨-, h2⟩ := h
            subst h2
            exact c6step_trans (pollUnblocked_c6 hpu) (c6step_pop rfl hev rfl)

theorem c6step_recordSentMaxData {d : Dir} (s : Streams) (v : Nat) :
    C6Step d s (s.recordSentMaxData v) := by
  unfold Streams.recordSentMaxData
  split
  · exact c6step_fields rfl rfl
  · exact c6step_rfl s

theorem writeControlFrames_c6 {d : Dir} {s : Streams} {pend sent : Retransmits}
    {bufLen maxSize : Nat} {out : Streams × Retransmits × Retransmits × Nat}
    (h : s.writeControlFrames pend sent bufLen maxSize = some out) : C6Step d s out.1 := by
  unfold Streams.writeControlFrames at h
  try simp only [] at h
  split at h
  · simp at h
  · injection h with h2
    subst h2
    refine c6step_trans2
      (if (pend.maxData && decide ((wcfStopLoop s.recv maxSize pend.stopSending
            sent.stopSending (wcfResetLoop s.send maxSize pend.resetStream
              sent.resetStream bufLen).2.2).2.2 + 9 < maxSize)) = true then
        s.recordSentMaxData (Nat.min s.localMaxData VARINTMAX)
      else s) ?_ (c6step_fields rfl rfl)
    exact c6step_ite (c6step_recordSentMaxData s _) (c6step_rfl s)

theorem writeStreamFrames_c6 {d : Dir} (s : Streams) (bufLen maxBufSize : Nat) :
    C6Step d s (s.writeStreamFrames bufLen maxBufSize).2.2 := by
  unfold Streams.writeStreamFrames
  exact c6step_fields rfl rfl

/-- A successful public operation that does not open direction `d` (in the
sense of `OpensDir`) cannot set a cleared `opened[d]` flag and never enqueues
an `Opened` event. -/
theorem step_c6 {d : Dir} {s : Streams} {op : Op} {s' : Streams} (h : step s op = some s')
    (hno : ¬ OpensDir s op d) : C6Step d s s' := by
  cases op with
  | write id n =>
    simp only [step, Option.map_eq_some'] at h
    obtain ⟨p, hp, h2⟩ := h
    subst h2
    exact write_c6 hp
  | read id n =>
    simp only [step, Option.map_eq_some'] at h
    obtain ⟨p, hp, h2⟩ := h
    subst h2
    exact read_c6 hp
  | readUnordered id =>
    simp only [step, Option.map_eq_some'] at h
    obtain ⟨p, hp, h2⟩ := h
    subst h2
    exact readUnordered_c6 hp
  | received f =>
    simp only [step, Option.map_eq_some'] at h
    obtain ⟨p, hp, h2⟩ := h
    subst h2
    exact received_c6 hp hno
  | receivedReset f =>
    simp only [step, Option.map_eq_some'] at h
    obtain ⟨p, hp, h2⟩ := h
    subst h2
    exact receivedReset_c6 hp hno
  | receivedStopSending id c =>
    simp only [step] at h
    injection h with h2
    subst h2
    exact receivedStopSending_c6 s id c hno
  | finish id =>
    simp only [step] at h
    injection h with h2
    subst h2
    exact finish_c6 s id
  | reset id =>
    simp only [step, Option.map_eq_some'] at h
    obtain ⟨p, hp, h2⟩ := h
    subst h2
    exact reset_c6 hp
  | resetAcked id =>
    simp only [step] at h
    exact resetAcked_c6 h
  | stop id =>
    simp only [step, Option.map_eq_some'] at h
    obtain ⟨p, hp, h2⟩ := h
    subst h2
    exact stop_c6 hp
  | receivedAckOf m =>
    simp only [step] at h
    exact receivedAckOf_c6 h
  | retransmit m =>
    simp only [step] at h
    injection h with h2
    subst h2
    exact retransmit_c6 s m
  | retransmitAllFor0rtt =>
    simp only [step] at h
    exact retransmitAllFor0rtt_c6 h
  | receivedMaxStreams dir count =>
    simp only [step] at h
    injection h with h2
    subst h2
    exact receivedMaxStreams_c6 s dir count
  | receivedMaxData n =>
    simp only [step] at h
    injection h with h2
    subst h2
    exact receivedMaxData_c6 s n
  | receivedMaxStreamData id off =>
    simp only [step] at h
    injection h with h2
    subst h2
    exact receivedMaxStreamData_c6 s id off hno
  | openStream p dir =>
    simp only [step, Option.map_eq_some'] at h
    obtain ⟨q, hq, h2⟩ := h
    subst h2
    exact openStream_c6 hq
  | setParams p =>
    simp only [step] at h
    exact setParams_c6 h
  | allocRemoteStream p dir =>
    simp only [step] at h
    exact allocRemoteStream_c6 h
  | accept dir =>
    simp only [step] at h
    injection h with h2
    subst h2
    exact accept_c6 s dir
  | zeroRttRejected =>
    simp only [step] at h
    exact zeroRttRejected_c6 h
  | poll =>
    simp only [step, Option.map_eq_some'] at h
    obtain ⟨p, hp, h2⟩ := h
    subst h2
    exact poll_c6 hp
  | writeControlFrames pend sent bufLen maxSize =>
    simp only [step, Option.map_eq_some'] at h
    obtain ⟨out, hout, h2⟩ := h
    subst h2
    exact writeControlFrames_c6 hout
  | writeStreamFrames bufLen maxBufSize =>
    simp only [step] at h
    injection h with h2
    subst h2
    exact writeStreamFrames_c6 s bufLen maxBufSize

/-- Along a non-panicking trace in which no operation re-opens direction `d`,
a cleared `opened[d]` flag stays cleared and no `Opened` event appears. -/
theorem execOps_c6 {d : Dir} {ops : List Op} {s s' : Streams}
    (h : execOps s ops = some s') (hnr : NoReopen d s ops) : C6Step d s s' := by
  induction ops generalizing s with
  | nil =>
    unfold execOps at h
    injection h with h2
    subst h2
    exact c6step_rfl s
  | cons op rest ih =>
    unfold execOps at h
    split at h
    · simp at h
    · rename_i s1 heq
      obtain ⟨h1, h2⟩ := hnr
      exact c6step_trans (step_c6 heq h1) (ih h (h2 s1 heq))


/-- C6: (1) whenever an `opened` flag is set, `poll` returns an `Opened`
event (scanning `Bi` before `Uni`) in preference to any `Writable`
notification or queued event, and clears the returned direction's flag;
(2) after a `poll` that returned `Opened` for direction `d`, no later `poll`
returns `Opened` for `d` again unless some intervening operation re-sets
`opened[d]` (`alloc_remote_stream` or receipt of a frame on a new remote
stream, captured by `OpensDir`), given that no `Opened` event sits in the
`events` queue (the implementation never enqueues one). -/
theorem c6_poll_opened (s : Streams) (d : Dir) :
    (s.opened d = true →
      ∃ d', s.opened d' = true ∧
        s.poll = some (some (StreamEvent.opened d'), { s with opened := upd s.opened d' false }) ∧
        upd s.opened d' false d' = false) ∧
    (∀ (s1 : Streams) (ops : List Op) (s2 : Streams) (e : StreamEvent) (s3 : Streams),
      StreamEvent.opened d ∉ s.events →
      s.poll = some (some (StreamEvent.opened d), s1) →
      NoReopen d s1 ops → execOps s1 ops = some s2 →
      s2.poll = some (some e, s3) → e ≠ StreamEvent.opened d) := by
  constructor
  · intro h0
    by_cases hbi : s.opened Dir.bi = true
    · refine ⟨Dir.bi, hbi, ?_, upd_self _ _ _⟩
      unfold Streams.poll
      rw [if_pos hbi]
    · have huni : s.opened Dir.uni = true := by
        cases d with
        | bi => exact absurd h0 hbi
        | uni => exact h0
      refine ⟨Dir.uni, huni, ?_, upd_self _ _ _⟩
      unfold Streams.poll
      rw [if_neg hbi, if_pos huni]
  · intro s1 ops s2 e s3 hne hp hnr hex hp2
    have hchar : s1.opened d = false ∧ StreamEvent.opened d ∉ s1.events := by
      unfold Streams.poll at hp
      split at hp
      · simp only [Option.some.injEq, Prod.mk.injEq] at hp
        obtain ⟨hpe, hs1⟩ := hp
        injection hpe with hpe
        subst hpe
        subst hs1
        refine ⟨?_, hne⟩
        show upd s.opened Dir.bi false Dir.bi = false
        exact upd_self _ _ _
      · split at hp
        · simp only [Option.some.injEq, Prod.mk.injEq] at hp
          obtain ⟨hpe, hs1⟩ := hp
          injection hpe with hpe
          subst hpe
          subst hs1
          refine ⟨?_, hne⟩
          show upd s.opened Dir.uni false Dir.uni = false
          exact upd_self _ _ _
        · split at hp
          · simp at hp
          · rename_i x1 r1 s1x hpu
            split at hp
            · simp at hp
            · split at hp
              · simp at hp
              · rename_i xev e0 rest hev
                simp only [Option.some.injEq, Prod.mk.injEq] at hp
                obtain ⟨hpe, hs1⟩ := hp
                have hmem : StreamEvent.opened d ∈ s.events := by
                  rw [← (pollUnblocked_proj hpu).2, hev, hpe]
                  exact List.mem_cons_self _ _
                exact absurd hmem hne
    have hstep2 : C6Step d s1 s2 := execOps_c6 hex hnr
    have h2o : s2.opened d = false := hstep2.1 hchar.1
    have h2e : StreamEvent.opened d ∉ s2.events := hstep2.2 hchar.2
    intro heq
    subst heq
    unfold Streams.poll at hp2
    split at hp2
    · rename_i hbi2
      simp only [Option.some.injEq, Prod.mk.injEq] at hp2
      obtain ⟨hpe, -⟩ := hp2
      injection hpe with hpe
      subst hpe
      rw [h2o] at hbi2
      exact Bool.noConfusion hbi2
    · rename_i hbi2
      split at hp2
      · rename_i huni2
        simp only [Option.some.injEq, Prod.mk.injEq] at hp2
        obtain ⟨hpe, -⟩ := hp2
        injection hpe with hpe
        subst hpe
        rw [h2o] at huni2
        exact Bool.noConfusion huni2
      · split at hp2
        · simp at hp2
        · rename_i x1 r1 s2x hpu2
          split at hp2
          · simp at hp2
          · split at hp2
            · simp at hp2
            · rename_i xev e0 rest hev2
              simp only [Option.some.injEq, Prod.mk.injEq] at hp2
              obtain ⟨hpe, -⟩ := hp2
              have hmem : StreamEvent.opened d ∈ s2.events := by
                rw [← (pollUnblocked_proj hpu2).2, hev2, hpe]
                exact List.mem_cons_self _ _
              exact absurd hmem h2e

theorem c6_poll_opened_witness :
    (∃ d', c6ev.opened d' = true ∧
      c6ev.poll = some (some (StreamEvent.opened d'), { c6ev with opened := upd c6ev.opened d' false }) ∧
      upd c6ev.opened d' false d' = false) ∧
    StreamEvent.finished wsid ≠ StreamEvent.opened Dir.uni := by
  constructor
  · exact (c6_poll_opened c6ev Dir.uni).1 rfl
  · exact (c6_poll_opened c6ev Dir.uni).2 c6ev1 [] c6ev1 (StreamEvent.finished wsid) c6ev2
      (by decide) rfl trivial rfl rfl

theorem addU_isSome {a b : Nat} (h : a + b ≤ U64MAX) : addU a b = some (a + b) := by
  unfold addU
  simp [h]

/-- Counter bookkeeping of the credit arm of `received_reset`: starting from
any intermediate state whose counters match `s`, adding `delta` to
`data_recvd` and issuing `credits` leaves exactly the claimed totals. -/
theorem c2_shape {s sMid s3 : Streams} {dr delta credits : Nat} {t : Bool}
    (hmiddr : sMid.dataRecvd = s.dataRecvd)
    (hmidlm : sMid.localMaxData = s.localMaxData)
    (haddu : addU sMid.dataRecvd delta = some dr)
    (hcred : Streams.addReadCredits { sMid with dataRecvd := dr } credits = some (t, s3)) :
    s3.dataRecvd = s.dataRecvd + delta ∧ s3.localMaxData = satAdd s.localMaxData credits := by
  have h1 := addReadCredits_state hcred
  subst h1
  have h2 := addU_eq_some haddu
  constructor
  · show dr = s.dataRecvd + delta
    rw [h2, hmiddr]
  · show satAdd ({ sMid with dataRecvd := dr } : Streams).localMaxData credits = satAdd s.localMaxData credits
    rw [show ({ sMid with dataRecvd := dr } : Streams).localMaxData = sMid.localMaxData from rfl, hmidlm]

/-- C2: on a received RESET_STREAM for a tracked recv stream whose
`final_offset` is consistent with any previously known final size and not
below the assembler's high-water mark `end`, and which is not redundant:
when `bytes_read ≠ final_offset`, `data_recvd` grows by exactly
`final_offset - end` and `local_max_data` grows (saturating) by exactly
`final_offset - bytes_read`; when `bytes_read = final_offset`, neither
counter changes and `Ok(ShouldTransmit(false))` is returned. -/
theorem c2_received_reset_credit (s : Streams) (f : ResetStreamFrame) (rs : Recv)
    (hval : s.validateReceiveId f.id = Except.ok ())
    (hrecv : s.recv f.id = some rs)
    (hnr : ∃ sz, rs.state = RecvState.recv sz)
    (hcons : ∀ fo, rs.finalOffset = some fo → fo = f.finalOffset)
    (hend : rs.assembler.endOffset ≤ f.finalOffset) :
    ∀ (r : Except TransportError Bool) (s' : Streams),
      s.receivedReset f = some (r, s') →
      ((rs.assembler.bytesRead ≠ f.finalOffset →
        s'.dataRecvd = s.dataRecvd + (f.finalOffset - rs.assembler.endOffset) ∧
        s'.localMaxData = satAdd s.localMaxData (f.finalOffset - rs.assembler.bytesRead)) ∧
       (rs.assembler.bytesRead = f.finalOffset →
        r = Except.ok false ∧ s'.dataRecvd = s.dataRecvd ∧ s'.localMaxData = s.localMaxData)) := by
  intro r s' hstep
  unfold Streams.receivedReset at hstep
  try simp only [] at hstep
  split at hstep
  · rename_i e heqv
    rw [hval] at heqv
    exact Except.noConfusion heqv
  · split at hstep
    · rename_i heqr
      rw [hrecv] at heqr
      exact Option.noConfusion heqr
    · rename_i u2 rs2 heqr
      rw [hrecv] at heqr
      injection heqr with heqr
      subst heqr
      split at hstep
      · rename_i e2 hfo
        exfalso
        cases hro : rs.finalOffset with
        | some offset =>
          have hoe := hcons offset hro
          subst hoe
          rw [hro] at hfo
          simp at hfo
        | none =>
          rw [hro] at hfo
          simp [Nat.not_lt.mpr hend] at hfo
      · rename_i u3 hfo
        obtain ⟨sz, hsz⟩ := hnr
        split at hstep
        · rename_i x hrst
          exfalso
          unfold Recv.reset at hrst
          rw [hsz] at hrst
          simp at hrst
        · rename_i rs' hrst
          unfold Recv.reset at hrst
          rw [hsz] at hrst
          simp only [Prod.mk.injEq, true_and] at hrst
          subst hrst
          split at hstep
          · rename_i hbne
            split at hstep
            · simp at hstep
            · simp at hstep
            · rename_i xa xb delta credits hdel hcred
              split at hstep
              · simp at hstep
              · rename_i xc dr haddu
                split at hstep
                · simp at hstep
                · rename_i xd t s3 hcredits
                  simp only [Option.some.injEq, Prod.mk.injEq] at hstep
                  obtain ⟨hr1, hs2⟩ := hstep
                  subst hs2
                  obtain ⟨-, hdeq⟩ := subU_eq_some hdel
                  obtain ⟨-, hceq⟩ := subU_eq_some hcred
                  subst hdeq
                  subst hceq
                  constructor
                  · intro hbne2
                    refine c2_shape ?_ ?_ haddu hcredits
                    · rw [(onStreamFrame_proj _ _ _).2.2.2.1]
                      split <;> rfl
                    · rw [(onStreamFrame_proj _ _ _).2.2.2.2.1]
                      split <;> rfl
                  · intro hbeq
                    exact absurd hbeq hbne
          · rename_i hbne
            simp only [Option.some.injEq, Prod.mk.injEq] at hstep
            obtain ⟨hr1, hs2⟩ := hstep
            subst hs2
            constructor
            · intro hbne2
              exact absurd hbne2 hbne
            · intro hbeq
              refine ⟨hr1.symm, ?_, ?_⟩
              · rw [(onStreamFrame_proj _ _ _).2.2.2.1]
                split <;> rfl
              · rw [(onStreamFrame_proj _ _ _).2.2.2.2.1]
                split <;> rfl

theorem c2_received_reset_credit_witness :
    ∃ r s', Streams.receivedReset wRecv { id := wsid, errorCode := 0, finalOffset := 7 } = some (r, s') ∧
      s'.dataRecvd = wRecv.dataRecvd + 7 ∧ s'.localMaxData = satAdd wRecv.localMaxData 7 := by
  obtain ⟨r, s', hrs⟩ : ∃ r s',
      Streams.receivedReset wRecv { id := wsid, errorCode := 0, finalOffset := 7 } =
        some (r, s') := ⟨_, _, rfl⟩
  have h := (c2_received_reset_credit wRecv { id := wsid, errorCode := 0, finalOffset := 7 }
    Recv.new rfl rfl ⟨none, rfl⟩ (fun fo hh => Option.noConfusion hh) (by decide)
    r s' hrs).1 (by decide)
  exact ⟨r, s', hrs, h.1, h.2⟩

/-- `validate_receive_id` depends only on `side`, `next` and `max_remote`. -/
theorem validate_congr {s s' : Streams} (hside : s'.side = s.side) (hnext : s'.next = s.next)
    (hmax : s'.maxRemote = s.maxRemote) (id : StreamId) :
    s'.validateReceiveId id = s.validateReceiveId id := by
  unfold Streams.validateReceiveId
  rw [hside, hnext, hmax]

/-- The credit arm of `received_reset` only rewrites counters: the fields
`validate_receive_id` and the recv map depend on pass through unchanged. -/
theorem c5_shape {sMid s3 : Streams} {dr credits : Nat} {t : Bool}
    (hcred : Streams.addReadCredits { sMid with dataRecvd := dr } credits = some (t, s3)) :
    s3.side = sMid.side ∧ s3.next = sMid.next ∧ s3.maxRemote = sMid.maxRemote ∧
      s3.recv = sMid.recv := by
  rw [addReadCredits_state hcred]
  exact ⟨rfl, rfl, rfl, rfl⟩

/-- A RESET_STREAM for a stream already in `ResetRecvd` with the same final
offset is redundant: `Ok(ShouldTransmit(false))`, state unchanged. -/
theorem receivedReset_redundant (s : Streams) (f : ResetStreamFrame) (rs : Recv) (c : Nat)
    (hval : s.validateReceiveId f.id = Except.ok ())
    (hrecv : s.recv f.id = some rs)
    (hsz : rs.state = RecvState.resetRecvd f.finalOffset c) :
    s.receivedReset f = some (Except.ok false, s) := by
  have hfo : rs.finalOffset = some f.finalOffset := by
    unfold Recv.finalOffset
    rw [hsz]
  have hrst : rs.reset f.errorCode f.finalOffset = (false, rs) := by
    unfold Recv.reset
    rw [hsz]
  unfold Streams.receivedReset
  simp [hval, hrecv, hfo, hrst]

/-- C5: a second `received_reset` with the identical `final_offset` on a
stream that was not stopped is redundant: it returns `Ok(ShouldTransmit(false))`
and leaves the whole state (in particular `data_recvd`, `local_max_data` and
the stream's recv state) unchanged; it is never a transport error and never
panics. -/
theorem c5_duplicate_reset (s : Streams) (f : ResetStreamFrame) (t1 : Bool) (s1 : Streams)
    (hstop : ∀ rs, s.recv f.id = some rs → rs.assembler.stopped = false)
    (h1 : s.receivedReset f = some (Except.ok t1, s1)) :
    s1.receivedReset f = some (Except.ok false, s1) := by
  have hstep := h1
  unfold Streams.receivedReset at hstep
  try simp only [] at hstep
  split at hstep
  · simp at hstep
  · rename_i a hvq
    have hval : s.validateReceiveId f.id = Except.ok () := hvq
    split at hstep
    · rename_i heqr
      simp only [Option.some.injEq, Prod.mk.injEq, Except.ok.injEq] at hstep
      obtain ⟨ht, hs⟩ := hstep
      subst ht
      subst hs
      exact h1
    · rename_i u2 rs heqr
      have hstopf : rs.assembler.stopped = false := hstop rs heqr
      split at hstep
      · simp at hstep
      · rename_i u3 hfo
        split at hstep
        · rename_i x hrst
          simp only [Option.some.injEq, Prod.mk.injEq, Except.ok.injEq] at hstep
          obtain ⟨ht, hs⟩ := hstep
          subst ht
          subst hs
          exact h1
        · rename_i rs' hrst
          cases hsz : rs.state with
          | recv sz =>
            unfold Recv.reset at hrst
            rw [hsz] at hrst
            simp only [Prod.mk.injEq, true_and] at hrst
            subst hrst
            have hcnd : ({ state := RecvState.resetRecvd f.finalOffset f.errorCode, assembler := rs.assembler.clear, sentMaxStreamData := rs.sentMaxStreamData } : Recv).assembler.stopped = false := hstopf
            rw [hcnd] at hstep
            simp only [Bool.false_eq_true, if_false, Bool.not_false] at hstep
            split at hstep
            · split at hstep
              · simp at hstep
              · simp at hstep
              · rename_i xa xb delta credits hdel hcred
                split at hstep
                · simp at hstep
                · rename_i xc dr haddu
                  split at hstep
                  · simp at hstep
                  · rename_i xd t s3 hcredits
                    simp only [Option.some.injEq, Prod.mk.injEq, Except.ok.injEq] at hstep
                    obtain ⟨ht, hs⟩ := hstep
                    rw [← hs]
                    refine @receivedReset_redundant _ f { state := RecvState.resetRecvd f.finalOffset f.errorCode, assembler := rs.assembler.clear, sentMaxStreamData := rs.sentMaxStreamData } f.errorCode ?hv ?hr rfl
                    case hr =>
                      rw [(c5_shape hcredits).2.2.2, (onStreamFrame_proj _ _ _).2.1]
                      exact upd_self _ _ _
                    case hv =>
                      have hside : s3.side = s.side := by
                        rw [(c5_shape hcredits).1,
                          (onStreamFrame_proj _ _ _).2.2.2.2.2.2.2.2.2.1]
                      have hnext : s3.next = s.next := by
                        rw [(c5_shape hcredits).2.1,
                          (onStreamFrame_proj _ _ _).2.2.2.2.2.2.2.2.1]
                      have hmax : s3.maxRemote = s.maxRemote := by
                        rw [(c5_shape hcredits).2.2.1,
                          (onStreamFrame_proj _ _ _).2.2.2.2.2.2.2.1]
                      rw [validate_congr hside hnext hmax f.id]
                      exact hval
            · simp only [Option.some.injEq, Prod.mk.injEq, Except.ok.injEq] at hstep
              obtain ⟨ht, hs⟩ := hstep
              rw [← hs]
              refine @receivedReset_redundant _ f { state := RecvState.resetRecvd f.finalOffset f.errorCode, assembler := rs.assembler.clear, sentMaxStreamData := rs.sentMaxStreamData } f.errorCode ?hv2 ?hr2 rfl
              case hr2 =>
                rw [(onStreamFrame_proj _ _ _).2.1]
                exact upd_self _ _ _
              case hv2 =>
                have hside : ∀ b, ((({ s with recv := upd s.recv f.id (some ({ state := RecvState.resetRecvd f.finalOffset f.errorCode, assembler := rs.assembler.clear, sentMaxStreamData := rs.sentMaxStreamData } : Recv)) } : Streams)).onStreamFrame b f.id).side = s.side := by
                  intro b
                  rw [(onStreamFrame_proj _ _ _).2.2.2.2.2.2.2.2.2.1]
                have hnext : ∀ b, ((({ s with recv := upd s.recv f.id (some ({ state := RecvState.resetRecvd f.finalOffset f.errorCode, assembler := rs.assembler.clear, sentMaxStreamData := rs.sentMaxStreamData } : Recv)) } : Streams)).onStreamFrame b f.id).next = s.next := by
                  intro b
                  rw [(onStreamFrame_proj _ _ _).2.2.2.2.2.2.2.2.1]
                have hmax : ∀ b, ((({ s with recv := upd s.recv f.id (some ({ state := RecvState.resetRecvd f.finalOffset f.errorCode, assembler := rs.assembler.clear, sentMaxStreamData := rs.sentMaxStreamData } : Recv)) } : Streams)).onStreamFrame b f.id).maxRemote = s.maxRemote := by
                  intro b
                  rw [(onStreamFrame_proj _ _ _).2.2.2.2.2.2.2.1]
                rw [validate_congr (hside true) (hnext true) (hmax true) f.id]
                exact hval
          | resetRecvd a b =>
            exfalso
            unfold Recv.reset at hrst
            rw [hsz] at hrst
            simp at hrst
          | closed =>
            exfalso
            unfold Recv.reset at hrst
            rw [hsz] at hrst
            simp at hrst

theorem c5_duplicate_reset_witness :
    ∃ t1 s1,
      Streams.receivedReset wRecv { id := wsid, errorCode := 0, finalOffset := 7 } =
        some (Except.ok t1, s1) ∧
      Streams.receivedReset s1 { id := wsid, errorCode := 0, finalOffset := 7 } =
        some (Except.ok false, s1) := by
  obtain ⟨t1, s1, h1⟩ : ∃ t1 s1,
      Streams.receivedReset wRecv { id := wsid, errorCode := 0, finalOffset := 7 } =
        some (Except.ok t1, s1) := ⟨_, _, rfl⟩
  refine ⟨t1, s1, h1, c5_duplicate_reset wRecv _ t1 s1 ?_ h1⟩
  intro rs h
  have h2 : some Recv.new = some rs := h
  injection h2 with h2
  subst h2
  rfl
